import Mathlib

/-!
Verification development for the getSinceraData_SM pipeline.

The repository is a two-stage batch pipeline:
* Stage 1 (src/1_create_domain_sample.py): samples web domains from a
  warehouse, normalizing and deduplicating them, with the Raptive (trusted)
  source taking precedence over competitor records.
* Stage 2 (src/2_collect_sincera_data.py): for each sampled domain performs a
  rate-limited, retried HTTP fetch against the Sincera metrics API,
  accumulating results and checkpointing every batch.

This file shallowly embeds those programs in Lean.  Wall-clock time is
modelled as natural-number seconds; a calendar day is 86400 seconds; HTTP
traffic is modelled by an oracle giving the outcome of each attempt; Python
exceptions are modelled with Except.  Pandas dataframes are modelled as
lists of rows, and the pseudo-random pandas sample(n, random_state=42) is
modelled as an unspecified function that returns a sublist of its input.
-/

namespace Sincera

/-! ## Python helpers -/

/-- Value of a list of ASCII digit characters read in base 10. -/
def digitsVal (cs : List Char) : Nat :=
  cs.foldl (fun a c => a * 10 + (c.toNat - 48)) 0

/-- Strip leading and trailing whitespace from a character list.  The
String.trim of core is implemented by well-founded recursion over byte
positions, so this structurally recursive equivalent is used instead to
keep the embedding computable by the kernel. -/
def listTrim (cs : List Char) : List Char :=
  ((cs.dropWhile Char.isWhitespace).reverse.dropWhile Char.isWhitespace).reverse

/-- Does the character list start with the given pattern?  Structural
equivalent of String.startsWith. -/
def leadsWith : List Char → List Char → Bool
  | [], _ => true
  | _ :: _, [] => false
  | p :: ps, c :: cs => p == c && leadsWith ps cs

/-- Model of Python int(s): surrounding whitespace is trimmed, an optional
sign is allowed, then one or more ASCII digits.  Returns none exactly when
Python raises ValueError. -/
def pyInt (s : String) : Option Int :=
  match listTrim s.data with
  | [] => none
  | c :: rest =>
    if c = '-' then
      if !rest.isEmpty && rest.all Char.isDigit then some (-(digitsVal rest : Int)) else none
    else if c = '+' then
      if !rest.isEmpty && rest.all Char.isDigit then some ((digitsVal rest : Int)) else none
    else
      if (c :: rest).all Char.isDigit then some ((digitsVal (c :: rest) : Int)) else none

/-! ## Data model of the Sincera API fetch (src/2_collect_sincera_data.py) -/

/-- JSON body of a 200 response, as read by data.get(...) in
fetch_domain_metrics.  Every field is optional, mirroring dict.get returning
None for absent keys.  Field values are modelled as strings since the code
passes them through without inspection.  The field avg_a2cr models the
avg_ads_to_content_ratio key of the API response. -/
structure SinceraPayload where
  publisher_id : Option String := none
  name : Option String := none
  visit_enabled : Option String := none
  status : Option String := none
  primary_supply_type : Option String := none
  pub_description : Option String := none
  categories : Option String := none
  slug : Option String := none
  avg_a2cr : Option String := none
  avg_ads_in_view : Option String := none
  avg_ad_refresh : Option String := none
  avg_page_weight : Option String := none
  avg_cpu : Option String := none
  total_supply_paths : Option String := none
  reseller_count : Option String := none
  total_unique_gpids : Option String := none
  id_absorption_rate : Option String := none
  owner_domain : Option String := none
  updated_at : Option String := none
deriving Repr, DecidableEq

/-- Outcome of response.json() on a 200 response, as consumed by the
data.get(...) calls of fetch_domain_metrics:
* obj p: the body parses as a JSON object, so every data.get succeeds;
* nonObject tn: the body parses as JSON but not as an object (null, a
  list, a string, ...), so the first data.get call raises an uncaught
  AttributeError (tn names the offending Python type, e.g. NoneType; the
  quotes Python puts around names in the message are not modelled);
* malformed: response.json() itself raises a JSON decode error, which in
  the requests library is a RequestException subclass and is therefore
  caught by the except clause. -/
inductive JsonBody where
  | obj (p : SinceraPayload)
  | nonObject (tn : String)
  | malformed
deriving Repr, DecidableEq

/-- One HTTP response from requests.get.  The body field matters only on
the 200 path; retry_after is the optional Retry-After header. -/
structure HttpResponse where
  status_code : Nat
  body : JsonBody := JsonBody.malformed
  retry_after : Option String := none
  text : String := ""
deriving Repr, DecidableEq

/-- Outcome of one call to requests.get: either an HttpResponse, or a
requests.exceptions.RequestException raised by the transport. -/
inductive AttemptOutcome where
  | resp (r : HttpResponse)
  | raised (msg : String)
deriving Repr, DecidableEq

/-- The dict returned by fetch_domain_metrics.  The metric fields mirror
SinceraPayload and are only populated on the 200 path.  The network field is
none until collect_all_data tags the record.  The fetched_at wall-clock
stamp is not modelled (always 0): no claim depends on its value, only on the
key being present. -/
structure FetchRecord where
  domain : String
  publisher_id : Option String := none
  name : Option String := none
  visit_enabled : Option String := none
  status : Option String := none
  primary_supply_type : Option String := none
  pub_description : Option String := none
  categories : Option String := none
  slug : Option String := none
  avg_a2cr : Option String := none
  avg_ads_in_view : Option String := none
  avg_ad_refresh : Option String := none
  avg_page_weight : Option String := none
  avg_cpu : Option String := none
  total_supply_paths : Option String := none
  reseller_count : Option String := none
  total_unique_gpids : Option String := none
  id_absorption_rate : Option String := none
  owner_domain : Option String := none
  updated_at : Option String := none
  api_success : Bool
  api_error : Option String
  fetched_at : Nat := 0
  network : Option String := none
deriving Repr, DecidableEq

/-- Record built on the HTTP 200 path of fetch_domain_metrics. -/
def successRecord (domain : String) (p : SinceraPayload) : FetchRecord :=
  { domain := domain
    publisher_id := p.publisher_id
    name := p.name
    visit_enabled := p.visit_enabled
    status := p.status
    primary_supply_type := p.primary_supply_type
    pub_description := p.pub_description
    categories := p.categories
    slug := p.slug
    avg_a2cr := p.avg_a2cr
    avg_ads_in_view := p.avg_ads_in_view
    avg_ad_refresh := p.avg_ad_refresh
    avg_page_weight := p.avg_page_weight
    avg_cpu := p.avg_cpu
    total_supply_paths := p.total_supply_paths
    reseller_count := p.reseller_count
    total_unique_gpids := p.total_unique_gpids
    id_absorption_rate := p.id_absorption_rate
    owner_domain := p.owner_domain
    updated_at := p.updated_at
    api_success := true
    api_error := none }

/-- Record built on the HTTP 404 path. -/
def notFoundRecord (domain : String) : FetchRecord :=
  { domain := domain
    api_success := false
    api_error := some ("Domain not found (404)") }

/-- Record built on the other-non-200-status path; the body text snippet is
truncated to 200 characters, as in text[:200]. -/
def httpErrorRecord (domain : String) (status : Nat) (text : String) : FetchRecord :=
  { domain := domain
    api_success := false
    api_error := some (("HTTP ") ++ toString status ++ (": ")
      ++ String.mk (text.data.take 200)) }

/-- Record built when the final retry attempt raises RequestException. -/
def exceptionRecord (domain : String) (msg : String) : FetchRecord :=
  { domain := domain
    api_success := false
    api_error := some (("Request exception: ") ++ msg) }

/-- Record built when the for-loop over attempts is exhausted. -/
def maxRetriesRecord (domain : String) : FetchRecord :=
  { domain := domain
    api_success := false
    api_error := some ("Max retries exceeded") }

/-- Fixed message used for the exception raised by response.json() on a
malformed 200 body; the precise wording of the underlying decode error is
not modelled. -/
def jsonDecodeMsg : String := "JSON decode error"

instance {ε α : Type} [DecidableEq ε] [DecidableEq α] : DecidableEq (Except ε α) := fun a b =>
  match a, b with
  | .error e, .error f =>
    if h : e = f then isTrue (by rw [h]) else isFalse (fun hh => by cases hh; exact h rfl)
  | .error _, .ok _ => isFalse (fun hh => by cases hh)
  | .ok _, .error _ => isFalse (fun hh => by cases hh)
  | .ok x, .ok y =>
    if h : x = y then isTrue (by rw [h]) else isFalse (fun hh => by cases hh; exact h rfl)

/-- Result of a whole fetch_domain_metrics call: the returned dict (or an
uncaught Python exception as Except.error), the number of HTTP requests
issued, and the list of time.sleep durations performed (Retry-After waits
and exponential backoff; rate-limiter waits are modelled separately). -/
structure FetchOutcome where
  result : Except String FetchRecord
  requests : Nat
  sleeps : List Nat
deriving Repr, DecidableEq

/-- The for attempt in range(max_retries) loop of fetch_domain_metrics.
fuel counts the remaining loop iterations, attempt the current index; a call
from fetch_domain_metrics has fuel + attempt = max_retries.  The responses
oracle gives the outcome of the HTTP request of each attempt index.

Branches, in source order:
* status 200 with a JSON object body: success record returned.
* status 200 with a JSON body that is not an object: the first
  data.get(...) call raises an AttributeError that nothing catches, so it
  propagates out of the fetch.
* status 200 with a JSON decode failure: the raised decode error is a
  RequestException, so control reaches the except clause: return the
  exception record on the last attempt, else back off 2 ^ attempt and retry.
* status 404: not-found record returned immediately.
* status 429: wait int(Retry-After header, default 60), then continue with
  the next loop iteration.  A non-integer header makes int() raise an
  uncaught ValueError; a negative value makes time.sleep raise an uncaught
  ValueError.
* any other status: http-error record returned immediately.
* RequestException from requests.get: as for the decode failure.
Falling out of the loop returns the max-retries record. -/
def fetchLoop (domain : String) (responses : Nat → AttemptOutcome) (max_retries : Nat) :
    Nat → Nat → Nat → List Nat → FetchOutcome
  | 0, _, reqs, sleeps => ⟨.ok (maxRetriesRecord domain), reqs, sleeps⟩
  | fuel + 1, attempt, reqs, sleeps =>
    match responses attempt with
    | .raised msg =>
      if attempt = max_retries - 1 then ⟨.ok (exceptionRecord domain msg), reqs + 1, sleeps⟩
      else fetchLoop domain responses max_retries fuel (attempt + 1) (reqs + 1)
        (sleeps ++ [2 ^ attempt])
    | .resp r =>
      if r.status_code = 200 then
        match r.body with
        | JsonBody.obj p => ⟨.ok (successRecord domain p), reqs + 1, sleeps⟩
        | JsonBody.nonObject tn =>
          ⟨.error (("AttributeError: ") ++ tn ++ (" object has no attribute get")),
            reqs + 1, sleeps⟩
        | JsonBody.malformed =>
          if attempt = max_retries - 1 then
            ⟨.ok (exceptionRecord domain jsonDecodeMsg), reqs + 1, sleeps⟩
          else fetchLoop domain responses max_retries fuel (attempt + 1) (reqs + 1)
            (sleeps ++ [2 ^ attempt])
      else if r.status_code = 404 then ⟨.ok (notFoundRecord domain), reqs + 1, sleeps⟩
      else if r.status_code = 429 then
        match pyInt ((r.retry_after).getD ("60")) with
        | none =>
          ⟨.error (("ValueError: invalid literal for int() with base 10: ")
            ++ (r.retry_after).getD ("60")), reqs + 1, sleeps⟩
        | some w =>
          if w < 0 then
            ⟨.error ("ValueError: sleep length must be non-negative"), reqs + 1, sleeps⟩
          else fetchLoop domain responses max_retries fuel (attempt + 1) (reqs + 1)
            (sleeps ++ [w.toNat])
      else ⟨.ok (httpErrorRecord domain r.status_code r.text), reqs + 1, sleeps⟩

/-- fetch_domain_metrics(domain, max_retries): run the attempt loop from
attempt 0 with max_retries iterations of fuel. -/
def fetch_domain_metrics (domain : String) (responses : Nat → AttemptOutcome)
    (max_retries : Nat) : FetchOutcome :=
  fetchLoop domain responses max_retries max_retries 0 0 []

/-! ## Collection loop (collect_all_data, save_incremental_progress) -/

/-- One row of the sample dataframe: columns domain and network. -/
structure SampleRow where
  domain : String
  network : String
deriving Repr, DecidableEq

/-- Python list slice l[-n:]: the last n elements (for n ≥ 1). -/
def lastN {α : Type} (l : List α) (n : Nat) : List α :=
  l.drop (l.length - n)

/-- State threaded through the collect_all_data loop: all_results, the saved
checkpoints as (batch number, saved rows) pairs in the order written by
save_incremental_progress, successful_requests and failed_requests. -/
structure CollectAcc where
  all_results : List FetchRecord
  checkpoints : List (Nat × List FetchRecord)
  successful_requests : Nat
  failed_requests : Nat
deriving Repr, DecidableEq

/-- The for i, row in enumerate(sample_df.iterrows(), 1) body of
collect_all_data.  env gives the HTTP attempt oracle for the i-th domain
(0-based); i here is the 0-based position, so the source's 1-based i is
i + 1.  Each row's fetch result gets the row's network written into it, is
appended to all_results, counted as success or failure, and every
batch_size domains the last batch_size results are saved as a checkpoint
numbered i_source / batch_size.  A Python exception escaping
fetch_domain_metrics aborts the loop (Except.error). -/
def collectLoop (env : Nat → Nat → AttemptOutcome) (batch_size : Nat) :
    List SampleRow → Nat → CollectAcc → Except String CollectAcc
  | [], _, acc => .ok acc
  | row :: rest, i, acc =>
    match (fetch_domain_metrics row.domain (env i) 3).result with
    | .error e => .error e
    | .ok r0 =>
      let r := { r0 with network := some row.network }
      let results := acc.all_results ++ [r]
      let succ := if r.api_success then acc.successful_requests + 1
                  else acc.successful_requests
      let fail := if r.api_success then acc.failed_requests else acc.failed_requests + 1
      let cps := if (i + 1) % batch_size = 0 then
                   acc.checkpoints ++ [((i + 1) / batch_size, lastN results batch_size)]
                 else acc.checkpoints
      collectLoop env batch_size rest (i + 1) ⟨results, cps, succ, fail⟩

/-- collect_all_data(sample_df, batch_size, is_testing): in testing mode the
batch size is shrunk to min(10, batch_size); after the loop, a final partial
batch (the last len % batch_size results, numbered len / batch_size + 1) is
saved when len(all_results) % batch_size != 0.  The final summary then
divides the success and failure counts by len(all_results), which raises
ZeroDivisionError before the return statement when the result list is
empty; that division is the only summary computation modelled (the
wall-clock duration statistics are printing-only and not modelled). -/
def collect_all_data (env : Nat → Nat → AttemptOutcome) (sample_df : List SampleRow)
    (batch_size : Nat) (is_testing : Bool) : Except String CollectAcc :=
  let bs := if is_testing then min 10 batch_size else batch_size
  match collectLoop env bs sample_df 0 ⟨[], [], 0, 0⟩ with
  | .error e => .error e
  | .ok acc =>
    let cps2 := if acc.all_results.length % bs ≠ 0 then
        acc.checkpoints ++
          [(acc.all_results.length / bs + 1,
            lastN acc.all_results (acc.all_results.length % bs))]
      else acc.checkpoints
    if acc.all_results.length = 0 then .error ("ZeroDivisionError: division by zero")
    else .ok { acc with checkpoints := cps2 }

/-- Results list of a collect_all_data outcome (empty on an exception). -/
def collectResults (o : Except String CollectAcc) : List FetchRecord :=
  match o with
  | .ok acc => acc.all_results
  | .error _ => []

/-- Checkpoint list of a collect_all_data outcome (empty on an exception). -/
def collectCheckpoints (o : Except String CollectAcc) : List (Nat × List FetchRecord) :=
  match o with
  | .ok acc => acc.checkpoints
  | .error _ => []

/-! ## Sampler (src/1_create_domain_sample.py) -/

/-- Pandas .str.lower().str.strip() on one value, over the character list
for kernel computability. -/
def pyLowerStrip (s : String) : String :=
  String.mk (listTrim (s.data.map Char.toLower))

/-- str.replace(regex ^https?://, once, at the start): drop a leading
protocol. -/
def dropProtocol (s : String) : String :=
  if leadsWith ("https://").data s.data then String.mk (s.data.drop 8)
  else if leadsWith ("http://").data s.data then String.mk (s.data.drop 7)
  else s

/-- str.replace(regex ^www\., once, at the start): drop a leading www. -/
def dropWww (s : String) : String :=
  if leadsWith ("www.").data s.data then String.mk (s.data.drop 4) else s

/-- str.split('/').str[0]: the part before the first slash. -/
def hostOnly (s : String) : String :=
  String.mk (s.data.takeWhile (fun c => c != '/'))

/-- The per-column cleaning pipeline of create_clean_domain_dataset, applied
identically to the Raptive URL column and the competitor DOMAIN column:
lowercase and strip, drop nulls (dropna), drop empty strings, strip
protocol, strip www., truncate at the first slash. -/
def cleanDomainColumn (raw : List (Option String)) : List String :=
  (((raw.map (fun o => o.map pyLowerStrip)).filterMap id).filter
    (fun d => d != (""))).map (fun d => hostOnly (dropWww (dropProtocol d)))

/-- The trusted group label. -/
def raptiveNetwork : String := "Raptive"

/-- drop_duplicates(subset=domain, keep first) over rows. -/
def dedupByDomain : List SampleRow → List String → List SampleRow
  | [], _ => []
  | r :: rest, seen =>
    if seen.contains r.domain then dedupByDomain rest seen
    else r :: dedupByDomain rest (r.domain :: seen)

/-- Comparison key of sort_values(by network then domain); domains are
unique after deduplication, so the sorted order is determined by the key and
the sorting algorithm's stability is immaterial. -/
def rowLE (a b : SampleRow) : Bool :=
  decide (a.network < b.network ∨ (a.network = b.network ∧ a.domain ≤ b.domain))

/-- Insert a row into a list sorted by rowLE. -/
def insertRow (r : SampleRow) : List SampleRow → List SampleRow
  | [] => [r]
  | x :: xs => if rowLE r x then r :: x :: xs else x :: insertRow r xs

/-- sort_values(by network then domain), modelled by insertion sort on the
rowLE key.  The rows being sorted have pairwise distinct domains, so every
comparison sort produces the same order; insertion sort keeps the model
computable by the kernel. -/
def sortRows : List SampleRow → List SampleRow
  | [] => []
  | r :: rs => insertRow r (sortRows rs)

/-- create_clean_domain_dataset(session, sql_queries), with the two
warehouse query results as inputs: the Raptive URL column (renamed to
domain, tagged Raptive) and the competitor (DOMAIN, NETWORK) rows.  Cleans
both domain columns, removes from the competitor rows every domain in the
normalized Raptive set, concatenates Raptive rows first, deduplicates by
domain keeping the first occurrence, and sorts by (network, domain). -/
def create_clean_domain_dataset (raptive_urls : List (Option String))
    (competitor_rows : List (Option String × String)) : List SampleRow :=
  let raptive_domains := cleanDomainColumn raptive_urls
  let raptive_df := raptive_domains.map (fun d => SampleRow.mk d raptiveNetwork)
  let competitor_df :=
    (((competitor_rows.map (fun p => (p.1.map pyLowerStrip, p.2))).filterMap
      (fun p => p.1.map (fun d => (d, p.2)))).filter (fun p => p.1 != (""))).map
      (fun p => SampleRow.mk (hostOnly (dropWww (dropProtocol p.1))) p.2)
  let competitor_df_clean := competitor_df.filter (fun r => !(raptive_domains.contains r.domain))
  let final_df := dedupByDomain (raptive_df ++ competitor_df_clean) []
  sortRows final_df

/-- The unique() order of the network column: first occurrences in row
order. -/
def uniqueNetworks (l : List SampleRow) : List String :=
  (l.map SampleRow.network).eraseDups

/-- Side effects performed by create_sample_dataset: os.makedirs and
DataFrame.to_pickle. -/
inductive SamplerEffect where
  | makedirs (path : String)
  | to_pickle (path : String) (rows : List SampleRow)
deriving Repr, DecidableEq

/-- create_sample_dataset(clean_df, sample_size): per network in unique()
order, keep every row for Aditude, keep every row when the group has at most
sample_size rows, otherwise draw sample(n=sample_size, random_state=42),
modelled by the pdSample parameter.  Returns the concatenated sample
together with the list of side effects the function performs: it creates the
pickles directory and writes the sample to pickles/sample_domains.pkl before
returning. -/
def create_sample_dataset (clean_df : List SampleRow) (sample_size : Nat)
    (pdSample : Nat → List SampleRow → List SampleRow) :
    List SampleRow × List SamplerEffect :=
  let sampled_dfs := (uniqueNetworks clean_df).map (fun network =>
    let network_df := clean_df.filter (fun r => r.network == network)
    if network == ("Aditude") then network_df
    else if network_df.length ≤ sample_size then network_df
    else pdSample sample_size network_df)
  let final_sample := sampled_dfs.flatten
  (final_sample,
   [SamplerEffect.makedirs ("pickles"),
    SamplerEffect.to_pickle ("pickles/sample_domains.pkl") final_sample])

/-! ## Rate limiter (respect_rate_limits)

Wall-clock time is modelled as natural-number seconds and a calendar day as
86400 seconds, so datetime.now().date() is t / 86400 and midnight of the
next day is (day + 1) * 86400.  time.sleep(w) advances the clock by w.  A
call receives the current clock value now; its effective acquisition
timestamp (the value appended to the deque) is now advanced over any waits
the call performs.  Successive calls must present non-decreasing clock
values, at least the previous call's effective timestamp. -/

/-- Seconds per calendar day. -/
def secondsPerDay : Nat := 86400

/-- datetime.now().date() for clock value t. -/
def dayOf (t : Nat) : Nat := t / secondsPerDay

/-- REQUESTS_PER_MINUTE constant. -/
def REQUESTS_PER_MINUTE : Nat := 45

/-- REQUESTS_PER_DAY constant. -/
def REQUESTS_PER_DAY : Nat := 5000

/-- The module-level rate limiting state: the _request_times deque (oldest
first), _requests_today, and _current_day. -/
structure RateState where
  requestTimes : List Nat
  requestsToday : Nat
  currentDay : Nat
deriving Repr, DecidableEq

/-- The while loop popping deque entries older than 60 seconds: pop from the
left while now - t >= 60, i.e. while t + 60 <= now. -/
def evictOlder (now : Nat) (ts : List Nat) : List Nat :=
  ts.dropWhile (fun t => decide (t + 60 ≤ now))

/-- The minute-limit block of respect_rate_limits, applied to the
already-evicted deque: when the deque holds at least REQUESTS_PER_MINUTE
timestamps, sleep 60 - (now - oldest) seconds (a no-op when that is not
positive), refresh the clock, and evict again.  The refreshed clock is
max now (oldest + 60): exactly oldest + 60 when the wait was positive,
unchanged otherwise. -/
def minuteGate (ts : List Nat) (now : Nat) : List Nat × Nat :=
  if REQUESTS_PER_MINUTE ≤ ts.length then
    let oldest := ts.headD 0
    let now2 := max now (oldest + 60)
    (evictOlder now2 ts, now2)
  else (ts, now)

/-- respect_rate_limits(): reset the daily counter and minute deque when the
date changed; when _requests_today has reached REQUESTS_PER_DAY, sleep until
the next midnight and reset; evict deque entries older than 60 seconds;
when the deque has reached REQUESTS_PER_MINUTE entries wait until the oldest
is 60 seconds old and evict again; append the current clock value to the
deque and increment the daily counter.  Returns the new state and the
effective acquisition timestamp. -/
def respect_rate_limits (s : RateState) (now : Nat) : RateState × Nat :=
  let today := dayOf now
  let s1 := if today = s.currentDay then s else RateState.mk [] 0 today
  let p2 := if REQUESTS_PER_DAY ≤ s1.requestsToday then
              (RateState.mk [] 0 (dayOf ((today + 1) * secondsPerDay)),
               (today + 1) * secondsPerDay)
            else (s1, now)
  let p3 := minuteGate (evictOlder p2.2 p2.1.requestTimes) p2.2
  (RateState.mk (p3.1 ++ [p3.2]) (p2.1.requestsToday + 1) p2.1.currentDay, p3.2)

/-- Initial module state at process start time t0: empty deque, zero
counter, _current_day = today. -/
def initRateState (t0 : Nat) : RateState :=
  RateState.mk [] 0 (dayOf t0)

/-- Run a sequence of acquisitions.  Each list element is the clock value at
which the call is made; the output records, per acquisition, the effective
timestamp and the day marker (_current_day) it was counted against. -/
def runAcquires (s : RateState) : List Nat → List (Nat × Nat)
  | [] => []
  | now :: rest =>
    let p := respect_rate_limits s now
    (p.2, p.1.currentDay) :: runAcquires p.1 rest

/-- A clock sequence is valid from state s and last effective time lastT
when each successive clock value is at least the previous call's effective
timestamp (real time never runs backwards). -/
def validClocks (s : RateState) (lastT : Nat) : List Nat → Bool
  | [] => true
  | now :: rest =>
    decide (lastT ≤ now) &&
      validClocks (respect_rate_limits s now).1 (respect_rate_limits s now).2 rest

/-- Number of acquisitions whose timestamp lies in the trailing 60-second
window [T, T + 60), regardless of day marker. -/
def countWindowAll (out : List (Nat × Nat)) (T : Nat) : Nat :=
  out.countP (fun e => decide (T ≤ e.1 ∧ e.1 < T + 60))

/-- Number of acquisitions whose timestamp falls on calendar day d. -/
def countCalendarDay (out : List (Nat × Nat)) (d : Nat) : Nat :=
  out.countP (fun e => decide (dayOf e.1 = d))

/-- Number of acquisitions counted against day marker d whose timestamp lies
in the trailing 60-second window [T, T + 60). -/
def countWindowMarker (out : List (Nat × Nat)) (d T : Nat) : Nat :=
  out.countP (fun e => decide (e.2 = d ∧ T ≤ e.1 ∧ e.1 < T + 60))

/-- Number of acquisitions counted against day marker d. -/
def countMarker (out : List (Nat × Nat)) (d : Nat) : Nat :=
  out.countP (fun e => decide (e.2 = d))

/-- Timestamps of the acquisitions counted against day marker d, in order. -/
def epochTimes (out : List (Nat × Nat)) (d : Nat) : List Nat :=
  (out.filter (fun e => decide (e.2 = d))).map Prod.fst

/-- An attempt outcome is a 429 response whose Retry-After header (default
60) parses as a nonnegative integer, so that int() and time.sleep succeed. -/
def Valid429 (o : AttemptOutcome) : Prop :=
  ∃ hr : HttpResponse, o = AttemptOutcome.resp hr ∧ hr.status_code = 429 ∧
    ∃ w : Nat, pyInt ((hr.retry_after).getD ("60")) = some ((w : Int))

/-- Ceiling division: the number of batches the spec predicts for N results
at batch size B. -/
def ceilDiv (n b : Nat) : Nat := (n + b - 1) / b

/-- The checkpoints written by the loop body alone (without the final
partial batch): one full batch of size bs per completed multiple of bs,
numbered from 1, each a contiguous slice of the result list. -/
def fullChunks (l : List FetchRecord) (bs : Nat) : List (Nat × List FetchRecord) :=
  (List.range (l.length / bs)).map (fun j => (j + 1, (l.drop (j * bs)).take bs))

/-- The checkpoint list the claim predicts: ceil(N / bs) batches, the j-th
(from 0) numbered j + 1 and holding the contiguous slice of the results from
position j * bs of length at most bs. -/
def ceilChunks (l : List FetchRecord) (bs : Nat) : List (Nat × List FetchRecord) :=
  (List.range (ceilDiv l.length bs)).map (fun j => (j + 1, (l.drop (j * bs)).take bs))

/-- Every fetch in the run returns normally (no uncaught exception), with
recs i naming the record the i-th fetch returns. -/
def RowsOk (env : Nat → Nat → AttemptOutcome) (recs : Nat → FetchRecord) :
    Nat → List SampleRow → Prop
  | _, [] => True
  | i, row :: rest =>
    (fetch_domain_metrics row.domain (env i) 3).result = Except.ok (recs i) ∧
      RowsOk env recs (i + 1) rest

/-- The result list the loop builds: the i-th fetch record with the i-th
row's network written into it, in sample order. -/
def taggedResults (recs : Nat → FetchRecord) : Nat → List SampleRow → List FetchRecord
  | _, [] => []
  | i, row :: rest =>
    { recs i with network := some row.network } :: taggedResults recs (i + 1) rest

/-- Placeholder record for positional lookups. -/
def defaultRecord : FetchRecord :=
  { domain := "", api_success := false, api_error := none }

/-- Placeholder row for positional lookups. -/
def defaultRow : SampleRow := SampleRow.mk ("") ("")

/-- Invariant of the rate limiter state after a sequence of acquisitions.
out is the acquisition history ((timestamp, day marker) pairs), lastT the
effective time of the most recent call (or the start time).  The deque is a
suffix of the current epoch's acquisition timestamps whose dropped prefix is
at least 60 seconds old; every epoch satisfies the per-window and per-day
bounds; the daily counter counts the current epoch; future epochs are
empty; the day marker never runs ahead of the clock's calendar day. -/
structure RateInv (s : RateState) (out : List (Nat × Nat)) (lastT : Nat) : Prop where
  deque_len : s.requestTimes.length ≤ REQUESTS_PER_MINUTE
  deque_suffix : ∃ pre, epochTimes out s.currentDay = pre ++ s.requestTimes ∧
    ∀ t ∈ pre, t + 60 ≤ lastT
  window_ok : ∀ d T, countWindowMarker out d T ≤ REQUESTS_PER_MINUTE
  counter_eq : countMarker out s.currentDay = s.requestsToday
  day_ok : ∀ d, countMarker out d ≤ REQUESTS_PER_DAY
  fresh : ∀ d, s.currentDay < d → countMarker out d = 0
  marker_le : s.currentDay ≤ dayOf lastT

/-- The tail of respect_rate_limits shared by all branches: evict, run the
minute gate, append the effective timestamp, bump the counter. -/
def finishAcquire (ts0 : List Nat) (c d now2 : Nat) : RateState × Nat :=
  let p3 := minuteGate (evictOlder now2 ts0) now2
  (RateState.mk (p3.1 ++ [p3.2]) (c + 1) d, p3.2)

/-! ## Composition helpers for concrete rate limiter traces -/

/-- State after running a sequence of acquisitions. -/
def runState (s : RateState) : List Nat → RateState
  | [] => s
  | now :: rest => runState (respect_rate_limits s now).1 rest

/-- Last effective timestamp after running a sequence of acquisitions. -/
def runLastT (s : RateState) (lastT : Nat) : List Nat → Nat
  | [] => lastT
  | now :: rest => runLastT (respect_rate_limits s now).1 (respect_rate_limits s now).2 rest

/-- Clock inputs for n bursts of 45 calls, the b-th burst at time
T + 60 * b. -/
def burstTrace (T : Nat) : Nat → List Nat
  | 0 => []
  | n + 1 => burstTrace T n ++ List.replicate 45 (T + 60 * n)

/-- The acquisition entries those bursts produce under day marker d. -/
def burstEntries (T d : Nat) : Nat → List (Nat × Nat)
  | 0 => []
  | n + 1 => burstEntries T d n ++ List.replicate 45 (T + 60 * n, d)

/-- Clock trace violating the trailing-60-second-window bound: one
acquisition just before midnight, then 45 acquisitions just after midnight
(the day change clears the minute window), all inside one 60-second
window. -/
def windowCexTrace : List Nat := 86399 :: List.replicate 45 86401

/-- Clock trace putting 5001 acquisitions on calendar day 1: 45 calls late
on day 0 fill the minute window, the 46th waits across midnight (timestamp
86410, counted against day 0's marker), then day 1's fresh counter admits
5000 further calls in bursts of 45 every 60 seconds. -/
def dailyCexTrace : List Nat :=
  List.replicate 45 86350 ++ ([86399] ++ ([86410] ++
    (List.replicate 44 86410 ++ (burstTrace 86470 110 ++ List.replicate 5 93070))))

/-- Acquisition entries the daily counterexample trace produces. -/
def dailyCexEntries : List (Nat × Nat) :=
  List.replicate 45 (86350, 0) ++ ([(86410, 0)] ++ ([(86410, 1)] ++
    (List.replicate 44 (86410, 1) ++
      (burstEntries 86470 1 110 ++ List.replicate 5 (93070, 1)))))

/-! ## Theorems -/

/-! ## Lemmas about fetch_domain_metrics -/

/-- Every record the attempt loop returns (on any path) names the requested
domain, and its api_success flag is true exactly when api_error is null. -/
theorem fetchLoop_shape (domain : String) (responses : Nat → AttemptOutcome)
    (max_retries : Nat) :
    ∀ fuel attempt reqs sleeps r,
      (fetchLoop domain responses max_retries fuel attempt reqs sleeps).result =
        Except.ok r →
      r.domain = domain ∧ (r.api_success = true ↔ r.api_error = none) := by
  intro fuel
  induction fuel with
  | zero =>
    intro attempt reqs sleeps r h
    simp only [fetchLoop] at h
    cases h
    simp [maxRetriesRecord]
  | succ n ih =>
    intro attempt reqs sleeps r h
    simp only [fetchLoop] at h
    cases hresp : responses attempt with
    | raised msg =>
      rw [hresp] at h
      by_cases hlast : attempt = max_retries - 1
      · simp only [hlast, if_pos rfl] at h
        cases h
        simp [exceptionRecord]
      · simp only [if_neg hlast] at h
        exact ih _ _ _ r h
    | resp hr =>
      rw [hresp] at h
      by_cases h200 : hr.status_code = 200
      · simp only [h200, if_pos rfl] at h
        cases hbody : hr.body with
        | obj p =>
          rw [hbody] at h
          cases h
          simp [successRecord]
        | nonObject tn =>
          rw [hbody] at h
          cases h
        | malformed =>
          rw [hbody] at h
          by_cases hlast : attempt = max_retries - 1
          · simp only [hlast, if_pos rfl] at h
            cases h
            simp [exceptionRecord]
          · simp only [if_neg hlast] at h
            exact ih _ _ _ r h
      · simp only [if_neg h200] at h
        by_cases h404 : hr.status_code = 404
        · simp only [h404, if_pos rfl] at h
          cases h
          simp [notFoundRecord]
        · simp only [if_neg h404] at h
          by_cases h429 : hr.status_code = 429
          · simp only [h429, if_pos rfl] at h
            cases hint : pyInt ((hr.retry_after).getD ("60")) with
            | none => rw [hint] at h; cases h
            | some w =>
              rw [hint] at h
              by_cases hneg : w < 0
              · simp only [if_pos hneg] at h
                cases h
              · simp only [if_neg hneg] at h
                exact ih _ _ _ r h
          · simp only [if_neg h429] at h
            cases h
            simp [httpErrorRecord]

/-- The attempt loop issues at most fuel further requests and performs at
most fuel further sleeps. -/
theorem fetchLoop_bound (domain : String) (responses : Nat → AttemptOutcome)
    (max_retries : Nat) :
    ∀ fuel attempt reqs sleeps,
      (fetchLoop domain responses max_retries fuel attempt reqs sleeps).requests ≤
          reqs + fuel ∧
        (fetchLoop domain responses max_retries fuel attempt reqs sleeps).sleeps.length ≤
          sleeps.length + fuel := by
  intro fuel
  induction fuel with
  | zero => intro attempt reqs sleeps; simp [fetchLoop]
  | succ n ih =>
    intro attempt reqs sleeps
    simp only [fetchLoop]
    cases hresp : responses attempt with
    | raised msg =>
      by_cases hlast : attempt = max_retries - 1
      · simp only [hlast, if_pos rfl]
        constructor <;> simp <;> omega
      · simp only [if_neg hlast]
        have h := ih (attempt + 1) (reqs + 1) (sleeps ++ [2 ^ attempt])
        simp only [List.length_append, List.length_cons, List.length_nil] at h
        constructor
        · exact le_trans h.1 (by omega)
        · exact le_trans h.2 (by omega)
    | resp hr =>
      by_cases h200 : hr.status_code = 200
      · simp only [h200, if_pos rfl]
        cases hbody : hr.body with
        | obj p => constructor <;> simp <;> omega
        | nonObject tn => constructor <;> simp <;> omega
        | malformed =>
          by_cases hlast : attempt = max_retries - 1
          · simp only [hlast, if_pos rfl]
            constructor <;> simp <;> omega
          · simp only [if_neg hlast]
            have h := ih (attempt + 1) (reqs + 1) (sleeps ++ [2 ^ attempt])
            simp only [List.length_append, List.length_cons, List.length_nil] at h
            constructor
            · exact le_trans h.1 (by omega)
            · exact le_trans h.2 (by omega)
      · simp only [if_neg h200]
        by_cases h404 : hr.status_code = 404
        · simp only [h404, if_pos rfl]
          constructor <;> simp <;> omega
        · simp only [if_neg h404]
          by_cases h429 : hr.status_code = 429
          · simp only [h429, if_pos rfl]
            cases hint : pyInt ((hr.retry_after).getD ("60")) with
            | none => constructor <;> simp <;> omega
            | some w =>
              by_cases hneg : w < 0
              · simp only [if_pos hneg]
                constructor <;> simp <;> omega
              · simp only [if_neg hneg]
                have h := ih (attempt + 1) (reqs + 1) (sleeps ++ [w.toNat])
                simp only [List.length_append, List.length_cons, List.length_nil] at h
                constructor
                · exact le_trans h.1 (by omega)
                · exact le_trans h.2 (by omega)
          · simp only [if_neg h429]
            constructor <;> simp <;> omega

/-- When every attempt in range gets a 429 response with a well-formed
Retry-After value, the attempt loop consumes all its fuel, issuing one
request and one sleep per iteration, and ends with the max-retries record. -/
theorem fetchLoop_all429 (domain : String) (responses : Nat → AttemptOutcome)
    (max_retries : Nat) :
    ∀ fuel attempt reqs sleeps,
      (∀ a, attempt ≤ a → a < attempt + fuel → Valid429 (responses a)) →
      (fetchLoop domain responses max_retries fuel attempt reqs sleeps).result =
          Except.ok (maxRetriesRecord domain) ∧
        (fetchLoop domain responses max_retries fuel attempt reqs sleeps).requests =
          reqs + fuel ∧
        (fetchLoop domain responses max_retries fuel attempt reqs sleeps).sleeps.length =
          sleeps.length + fuel := by
  intro fuel
  induction fuel with
  | zero => intro attempt reqs sleeps _; simp [fetchLoop]
  | succ n ih =>
    intro attempt reqs sleeps hall
    obtain ⟨hr, hresp, h429, w, hw⟩ := hall attempt le_rfl (by omega)
    have h200 : ¬hr.status_code = 200 := by rw [h429]; decide
    have h404 : ¬hr.status_code = 404 := by rw [h429]; decide
    have hneg : ¬((w : Int) < 0) := by simp
    simp only [fetchLoop, hresp, if_neg h200, if_neg h404, if_pos h429, hw,
      if_neg hneg]
    have h := ih (attempt + 1) (reqs + 1) (sleeps ++ [((w : Int)).toNat])
      (fun a ha hb => hall a (by omega) (by omega))
    refine ⟨h.1, ?_, ?_⟩
    · rw [h.2.1]; omega
    · rw [h.2.2]
      simp only [List.length_append, List.length_cons, List.length_nil]
      omega

/-- C10: on every path (success, 404, other non-200 status, exhausted
retries) a record returned by fetch_domain_metrics carries the requested
domain together with the api_success, api_error and fetched_at fields of
the FetchRecord shape, and api_success is true exactly when api_error is
null. -/
theorem fetch_result_shape (domain : String) (responses : Nat → AttemptOutcome)
    (max_retries : Nat) (r : FetchRecord)
    (h : (fetch_domain_metrics domain responses max_retries).result = Except.ok r) :
    r.domain = domain ∧ (r.api_success = true ↔ r.api_error = none) :=
  fetchLoop_shape domain responses max_retries max_retries 0 0 [] r h

/-- Witness for fetch_result_shape at a concrete 404 exchange. -/
theorem fetch_result_shape_witness :
    (notFoundRecord ("x.com")).domain = ("x.com") ∧
      ((notFoundRecord ("x.com")).api_success = true ↔
        (notFoundRecord ("x.com")).api_error = none) :=
  fetch_result_shape ("x.com")
    (fun _ => AttemptOutcome.resp (HttpResponse.mk 404 JsonBody.malformed none (""))) 3
    (notFoundRecord ("x.com")) rfl

/-- C3 counterexample: on a fetch whose first attempt returns HTTP 404, the
code performs exactly one request and returns success=false, but the error
string is Domain not found (404), not the claimed string domain not
found. -/
theorem fetch_404_error_string_cex :
    (fetch_domain_metrics ("example.com")
        (fun _ => AttemptOutcome.resp (HttpResponse.mk 404 JsonBody.malformed none (""))) 3) =
      FetchOutcome.mk (Except.ok (notFoundRecord ("example.com"))) 1 [] ∧
    (notFoundRecord ("example.com")).api_error = some ("Domain not found (404)") ∧
    (notFoundRecord ("example.com")).api_error ≠ some ("domain not found") := by
  refine ⟨rfl, rfl, ?_⟩
  decide

/-- C3 (amended): a fetch whose first attempt returns HTTP 404 issues
exactly one HTTP request, performs no retry and no sleep, and returns
success=false with error Domain not found (404). -/
theorem fetch_404_first_attempt (domain : String) (responses : Nat → AttemptOutcome)
    (max_retries : Nat) (hr : HttpResponse) (hmr : 0 < max_retries)
    (h0 : responses 0 = AttemptOutcome.resp hr) (h404 : hr.status_code = 404) :
    fetch_domain_metrics domain responses max_retries =
      FetchOutcome.mk (Except.ok (notFoundRecord domain)) 1 [] := by
  obtain ⟨k, rfl⟩ : ∃ k, max_retries = k + 1 := ⟨max_retries - 1, by omega⟩
  have h200 : ¬hr.status_code = 200 := by rw [h404]; decide
  simp [fetch_domain_metrics, fetchLoop, h0, if_neg h200, h404]

/-- Witness for fetch_404_first_attempt at a concrete 404 exchange. -/
theorem fetch_404_first_attempt_witness :
    fetch_domain_metrics ("y.com")
        (fun _ => AttemptOutcome.resp (HttpResponse.mk 404 JsonBody.malformed none (""))) 3 =
      FetchOutcome.mk (Except.ok (notFoundRecord ("y.com"))) 1 [] :=
  fetch_404_first_attempt ("y.com")
    (fun _ => AttemptOutcome.resp (HttpResponse.mk 404 JsonBody.malformed none (""))) 3
    (HttpResponse.mk 404 JsonBody.malformed none ("")) (by decide) rfl rfl

/-- C4: a fetch whose first attempt returns HTTP 429 and whose second
returns HTTP 200 yields the single successful result after exactly one
extra wait/retry cycle: two requests in total and one sleep, whose duration
is int() of the Retry-After header value with the string 60 substituted
when the header is absent, so the wait defaults to 60 seconds. -/
theorem fetch_429_then_200 (domain : String) (responses : Nat → AttemptOutcome)
    (max_retries : Nat) (r1 r2 : HttpResponse) (p : SinceraPayload) (w : Nat)
    (hmr : 2 ≤ max_retries)
    (h0 : responses 0 = AttemptOutcome.resp r1) (h429 : r1.status_code = 429)
    (hw : pyInt ((r1.retry_after).getD ("60")) = some ((w : Int)))
    (h1 : responses 1 = AttemptOutcome.resp r2) (h200 : r2.status_code = 200)
    (hbody : r2.body = JsonBody.obj p) :
    fetch_domain_metrics domain responses max_retries =
        FetchOutcome.mk (Except.ok (successRecord domain p)) 2 [w] ∧
      ((r1.retry_after) = none → w = 60) := by
  obtain ⟨k, rfl⟩ : ∃ k, max_retries = k + 2 := ⟨max_retries - 2, by omega⟩
  have h200a : ¬r1.status_code = 200 := by rw [h429]; decide
  have h404a : ¬r1.status_code = 404 := by rw [h429]; decide
  have hneg : ¬((w : Int) < 0) := by simp
  constructor
  · simp only [fetch_domain_metrics, fetchLoop, h0, if_neg h200a, if_neg h404a,
      if_pos h429, hw, if_neg hneg, h1, if_pos h200, hbody, Int.toNat_natCast,
      List.nil_append]
  · intro hnone
    rw [hnone] at hw
    have h60 : pyInt ("60") = some 60 := by decide
    simp only [Option.getD_none] at hw
    rw [h60] at hw
    have h2 := Option.some.inj hw
    omega

/-- Witness for fetch_429_then_200: header Retry-After 30 then a 200. -/
theorem fetch_429_then_200_witness :
    fetch_domain_metrics ("z.com")
        (fun a => if a = 0 then
            AttemptOutcome.resp (HttpResponse.mk 429 JsonBody.malformed (some ("30")) (""))
          else AttemptOutcome.resp (HttpResponse.mk 200 (JsonBody.obj {}) none (""))) 3 =
        FetchOutcome.mk (Except.ok (successRecord ("z.com") {})) 2 [30] ∧
      ((HttpResponse.mk 429 JsonBody.malformed (some ("30")) ("")).retry_after = none → 30 = 60) :=
  fetch_429_then_200 ("z.com")
    (fun a => if a = 0 then
        AttemptOutcome.resp (HttpResponse.mk 429 JsonBody.malformed (some ("30")) (""))
      else AttemptOutcome.resp (HttpResponse.mk 200 (JsonBody.obj {}) none (""))) 3
    (HttpResponse.mk 429 JsonBody.malformed (some ("30")) (""))
    (HttpResponse.mk 200 (JsonBody.obj {}) none ("")) {} 30
    (by decide) rfl rfl (by decide) rfl rfl rfl

/-- C5: fetch_domain_metrics always terminates within max_retries attempts:
for any server behaviour it issues at most max_retries requests and sleeps
at most max_retries times, and when every attempt is answered with HTTP 429
(with well-formed Retry-After values) it performs exactly max_retries
wait/retry cycles and then returns the max-retries-exceeded failure
record. -/
theorem fetch_attempts_bounded (domain : String) (responses : Nat → AttemptOutcome)
    (max_retries : Nat) (hmr : 0 < max_retries) :
    (fetch_domain_metrics domain responses max_retries).requests ≤ max_retries ∧
      (fetch_domain_metrics domain responses max_retries).sleeps.length ≤ max_retries ∧
      ((∀ a, a < max_retries → Valid429 (responses a)) →
        (fetch_domain_metrics domain responses max_retries).result =
            Except.ok (maxRetriesRecord domain) ∧
          (fetch_domain_metrics domain responses max_retries).requests = max_retries ∧
          (fetch_domain_metrics domain responses max_retries).sleeps.length =
            max_retries) := by
  have hb := fetchLoop_bound domain responses max_retries max_retries 0 0 []
  refine ⟨by simpa [fetch_domain_metrics] using hb.1,
    by simpa [fetch_domain_metrics] using hb.2, ?_⟩
  intro hall
  have h := fetchLoop_all429 domain responses max_retries max_retries 0 0 []
    (fun a ha hb2 => hall a (by omega))
  refine ⟨h.1, by simpa [fetch_domain_metrics] using h.2.1,
    by simpa [fetch_domain_metrics] using h.2.2⟩

/-- Witness for fetch_attempts_bounded: every attempt rate-limited with no
Retry-After header. -/
theorem fetch_attempts_bounded_witness :
    (fetch_domain_metrics ("w.com")
          (fun _ => AttemptOutcome.resp (HttpResponse.mk 429 JsonBody.malformed none (""))) 3).requests ≤ 3 ∧
      (fetch_domain_metrics ("w.com")
          (fun _ => AttemptOutcome.resp (HttpResponse.mk 429 JsonBody.malformed none (""))) 3).sleeps.length ≤ 3 ∧
      ((∀ a, a < 3 →
          Valid429 ((fun _ => AttemptOutcome.resp (HttpResponse.mk 429 JsonBody.malformed none (""))) a)) →
        (fetch_domain_metrics ("w.com")
              (fun _ => AttemptOutcome.resp (HttpResponse.mk 429 JsonBody.malformed none (""))) 3).result =
            Except.ok (maxRetriesRecord ("w.com")) ∧
          (fetch_domain_metrics ("w.com")
              (fun _ => AttemptOutcome.resp (HttpResponse.mk 429 JsonBody.malformed none (""))) 3).requests = 3 ∧
          (fetch_domain_metrics ("w.com")
              (fun _ => AttemptOutcome.resp (HttpResponse.mk 429 JsonBody.malformed none (""))) 3).sleeps.length = 3) :=
  fetch_attempts_bounded ("w.com")
    (fun _ => AttemptOutcome.resp (HttpResponse.mk 429 JsonBody.malformed none (""))) 3 (by decide)

/-- C7 counterexample: two per-domain failures escape fetch_domain_metrics
instead of being captured in the result record.  First, a 429 response
whose Retry-After header is not an integer makes int() raise a ValueError
that the except clause (which only catches RequestException) does not
catch.  Second, a 200 response whose body is valid JSON but not a JSON
object (here null, of Python type NoneType) makes the first data.get call
raise an uncaught AttributeError. -/
theorem fetch_uncaught_exceptions_cex :
    (fetch_domain_metrics ("example.com")
        (fun _ => AttemptOutcome.resp
          (HttpResponse.mk 429 JsonBody.malformed (some ("abc")) (""))) 3).result =
      Except.error (("ValueError: invalid literal for int() with base 10: ") ++ ("abc")) ∧
    (fetch_domain_metrics ("example.com")
        (fun _ => AttemptOutcome.resp
          (HttpResponse.mk 200 (JsonBody.nonObject ("NoneType")) none (""))) 3).result =
      Except.error (("AttributeError: ") ++ ("NoneType")
        ++ (" object has no attribute get")) := by
  exact ⟨rfl, rfl⟩

/-- C7 (amended): per-domain failures (404, other non-200 statuses,
transport exceptions, 200 responses whose body fails to parse as JSON, and
429 responses whose Retry-After is absent or a nonnegative integer) are
captured in the returned record rather than raised; only two per-domain
cases raise out of the fetch: a 429 with a Retry-After that int() or
time.sleep rejects, and a 200 whose body is valid JSON but not a JSON
object, on which data.get raises AttributeError. -/
theorem fetch_captures_errors (domain : String) (responses : Nat → AttemptOutcome)
    (max_retries : Nat)
    (hvalid : ∀ a hr, responses a = AttemptOutcome.resp hr → hr.status_code = 429 →
      ∃ w : Nat, pyInt ((hr.retry_after).getD ("60")) = some ((w : Int)))
    (hbodyok : ∀ a hr tn, responses a = AttemptOutcome.resp hr →
      hr.body ≠ JsonBody.nonObject tn) :
    ∃ r, (fetch_domain_metrics domain responses max_retries).result = Except.ok r := by
  suffices h : ∀ fuel attempt reqs sleeps,
      ∃ r, (fetchLoop domain responses max_retries fuel attempt reqs sleeps).result =
        Except.ok r from h max_retries 0 0 []
  intro fuel
  induction fuel with
  | zero => intro attempt reqs sleeps; exact ⟨maxRetriesRecord domain, rfl⟩
  | succ n ih =>
    intro attempt reqs sleeps
    simp only [fetchLoop]
    cases hresp : responses attempt with
    | raised msg =>
      by_cases hlast : attempt = max_retries - 1
      · exact ⟨exceptionRecord domain msg, by simp [hlast]⟩
      · simpa [if_neg hlast] using ih (attempt + 1) (reqs + 1) (sleeps ++ [2 ^ attempt])
    | resp hr =>
      by_cases h200 : hr.status_code = 200
      · cases hbody : hr.body with
        | obj p => exact ⟨successRecord domain p, by simp [h200, hbody]⟩
        | nonObject tn => exact absurd hbody (hbodyok attempt hr tn hresp)
        | malformed =>
          by_cases hlast : attempt = max_retries - 1
          · exact ⟨exceptionRecord domain jsonDecodeMsg, by simp [h200, hbody, hlast]⟩
          · simpa [h200, hbody, if_neg hlast] using
              ih (attempt + 1) (reqs + 1) (sleeps ++ [2 ^ attempt])
      · by_cases h404 : hr.status_code = 404
        · exact ⟨notFoundRecord domain, by simp [if_neg h200, h404]⟩
        · by_cases h429 : hr.status_code = 429
          · obtain ⟨w, hw⟩ := hvalid attempt hr hresp h429
            have hneg : ¬((w : Int) < 0) := by simp
            simpa [if_neg h200, if_neg h404, h429, hw, if_neg hneg] using
              ih (attempt + 1) (reqs + 1) (sleeps ++ [((w : Int)).toNat])
          · exact ⟨httpErrorRecord domain hr.status_code hr.text,
              by simp [if_neg h200, if_neg h404, if_neg h429]⟩

/-- Witness for fetch_captures_errors on a server that always times out. -/
theorem fetch_captures_errors_witness :
    ∃ r, (fetch_domain_metrics ("v.com")
        (fun _ => AttemptOutcome.raised ("timeout")) 3).result = Except.ok r :=
  fetch_captures_errors ("v.com") (fun _ => AttemptOutcome.raised ("timeout")) 3
    (fun a hr hresp _ => by cases hresp) (fun a hr tn hresp => by cases hresp)

/-! ## Lemmas about the sampler -/

/-- Inserting into a sorted list is a permutation of consing. -/
theorem insertRow_perm (r : SampleRow) : ∀ l : List SampleRow, (insertRow r l).Perm (r :: l)
  | [] => List.Perm.refl [r]
  | x :: xs => by
    simp only [insertRow]
    by_cases h : rowLE r x
    · rw [if_pos h]
    · rw [if_neg h]
      exact (List.Perm.cons x (insertRow_perm r xs)).trans (List.Perm.swap r x xs)

/-- Insertion sort permutes its input. -/
theorem sortRows_perm : ∀ l : List SampleRow, (sortRows l).Perm l
  | [] => List.Perm.refl []
  | r :: rs =>
    (insertRow_perm r (sortRows rs)).trans (List.Perm.cons r (sortRows_perm rs))

/-- A deduplicated row list only contains rows of the original list. -/
theorem dedupByDomain_subset : ∀ (l : List SampleRow) (seen : List String),
    dedupByDomain l seen ⊆ l := by
  intro l
  induction l with
  | nil => intro seen; simp [dedupByDomain]
  | cons r rest ih =>
    intro seen
    simp only [dedupByDomain]
    by_cases h : seen.contains r.domain
    · simp only [if_pos h]
      exact List.Subset.trans (ih seen) (List.subset_cons_self r rest)
    · simp only [if_neg h]
      intro x hx
      rcases List.mem_cons.mp hx with hx | hx
      · exact List.mem_cons.mpr (Or.inl hx)
      · exact List.mem_cons.mpr (Or.inr (ih _ hx))

/-- Every row of create_clean_domain_dataset whose domain lies in the
normalized Raptive domain set is tagged with the Raptive network: the
competitor rows sharing such a domain are filtered out before the two
sources are concatenated. -/
theorem clean_dataset_trusted (raptive_urls : List (Option String))
    (competitor_rows : List (Option String × String)) (r : SampleRow)
    (hr : r ∈ create_clean_domain_dataset raptive_urls competitor_rows)
    (hd : r.domain ∈ cleanDomainColumn raptive_urls) :
    r.network = raptiveNetwork := by
  simp only [create_clean_domain_dataset] at hr
  have hmem := (sortRows_perm _).mem_iff.mp hr
  have hmem2 := dedupByDomain_subset _ [] hmem
  rcases List.mem_append.mp hmem2 with hmem3 | hmem3
  · obtain ⟨d, _, hd2⟩ := List.mem_map.mp hmem3
    rw [← hd2]
  · have hfil := List.of_mem_filter hmem3
    rw [Bool.not_eq_true'] at hfil
    have hc : (cleanDomainColumn raptive_urls).contains r.domain = true :=
      List.elem_eq_true_of_mem hd
    rw [hc] at hfil
    simp at hfil

/-- C8: no domain in the normalized trusted (Raptive) set ever appears in
the sampler's output tagged with a non-trusted group; trusted records take
precedence over competitor records sharing the same normalized domain. -/
theorem trusted_precedence (raptive_urls : List (Option String))
    (competitor_rows : List (Option String × String)) (sample_size : Nat)
    (pdSample : Nat → List SampleRow → List SampleRow)
    (hs : ∀ n l, (pdSample n l).Sublist l) (r : SampleRow)
    (hr : r ∈ (create_sample_dataset (create_clean_domain_dataset raptive_urls competitor_rows)
        sample_size pdSample).1)
    (hd : r.domain ∈ cleanDomainColumn raptive_urls) :
    r.network = raptiveNetwork := by
  set clean := create_clean_domain_dataset raptive_urls competitor_rows with hclean
  have hmem : r ∈ clean := by
    simp only [create_sample_dataset] at hr
    obtain ⟨group, hgroup, hrg⟩ := List.mem_flatten.mp hr
    obtain ⟨network, _, hnet⟩ := List.mem_map.mp hgroup
    rw [← hnet] at hrg
    by_cases h1 : network == ("Aditude")
    · rw [if_pos h1] at hrg
      exact (List.filter_sublist clean).subset hrg
    · rw [if_neg h1] at hrg
      by_cases h2 : (clean.filter (fun row => row.network == network)).length ≤ sample_size
      · rw [if_pos h2] at hrg
        exact (List.filter_sublist clean).subset hrg
      · rw [if_neg h2] at hrg
        exact (List.filter_sublist clean).subset
          (((hs sample_size _).subset) hrg)
  exact clean_dataset_trusted raptive_urls competitor_rows r hmem hd

/-- Witness for trusted_precedence: the spec scenario where a.com appears
both as a trusted URL (spelled A.com) and as a competitor record. -/
theorem trusted_precedence_witness :
    (∀ n l, ((fun (_ : Nat) (l2 : List SampleRow) => l2) n l).Sublist l) ∧
      SampleRow.mk ("a.com") ("Raptive") ∈
        (create_sample_dataset
          (create_clean_domain_dataset [some ("A.com")] [(some ("a.com"), ("NetX"))])
          500 (fun _ l2 => l2)).1 ∧
      (SampleRow.mk ("a.com") ("Raptive")).domain ∈ cleanDomainColumn [some ("A.com")] ∧
      (SampleRow.mk ("a.com") ("Raptive")).network = raptiveNetwork :=
  ⟨fun _ l => List.Sublist.refl l, by decide, by decide,
    trusted_precedence [some ("A.com")] [(some ("a.com"), ("NetX"))] 500
      (fun _ l2 => l2) (fun _ l => List.Sublist.refl l)
      (SampleRow.mk ("a.com") ("Raptive")) (by decide) (by decide)⟩

/-- A full chunk strictly inside the list is unchanged by appending an
element. -/
theorem chunk_slice_stable (l : List FetchRecord) (x : FetchRecord) (bs j : Nat)
    (h : (j + 1) * bs ≤ l.length) :
    ((l ++ [x]).drop (j * bs)).take bs = (l.drop (j * bs)).take bs := by
  have hs : (j + 1) * bs = j * bs + bs := by ring
  have h1 : j * bs ≤ l.length := by omega
  rw [List.drop_append_of_le_length h1]
  have h2 : bs ≤ (l.drop (j * bs)).length := by
    rw [List.length_drop]; omega
  rw [List.take_append_of_le_length h2]

/-- Division bookkeeping when the list length reaches a multiple of bs. -/
theorem div_facts_of_dvd (n bs : Nat) (hbs : 0 < bs) (hdvd : bs ∣ n + 1) :
    (n + 1) / bs = n / bs + 1 ∧ (n / bs) * bs = n + 1 - bs := by
  obtain ⟨k, hk⟩ := hdvd
  have hk1 : 0 < k := by
    rcases Nat.eq_zero_or_pos k with h | h
    · subst h; rw [Nat.mul_zero] at hk; omega
    · exact h
  obtain ⟨m, rfl⟩ : ∃ m, k = m + 1 := ⟨k - 1, by omega⟩
  have hkr : n + 1 = bs * m + bs := by rw [hk]; ring
  have hn : n = (bs - 1) + bs * m := by omega
  have hq : n / bs = m := by
    rw [hn, Nat.add_mul_div_left _ _ hbs, Nat.div_eq_of_lt (by omega)]
    omega
  have hq1 : (n + 1) / bs = m + 1 := by
    rw [hk, Nat.mul_div_cancel_left _ hbs]
  constructor
  · omega
  · rw [hq]
    have hc : m * bs = bs * m := Nat.mul_comm m bs
    omega

/-- Appending one result extends the full-chunk list by one chunk exactly
when the new length is a multiple of bs, and that chunk is the last bs
results. -/
theorem fullChunks_append (l : List FetchRecord) (x : FetchRecord) (bs : Nat)
    (hbs : 0 < bs) :
    fullChunks (l ++ [x]) bs =
      if (l.length + 1) % bs = 0 then
        fullChunks l bs ++ [((l.length + 1) / bs, lastN (l ++ [x]) bs)]
      else fullChunks l bs := by
  by_cases hmod : (l.length + 1) % bs = 0
  · rw [if_pos hmod]
    have hdvd : bs ∣ l.length + 1 := (Nat.dvd_iff_mod_eq_zero).mpr hmod
    obtain ⟨hdiv, hq⟩ := div_facts_of_dvd l.length bs hbs hdvd
    have hlen : (l ++ [x]).length = l.length + 1 := by simp
    unfold fullChunks
    rw [hlen, hdiv, List.range_succ, List.map_append]
    congr 1
    · apply List.map_congr_left
      intro j hj
      have hj2 : j < l.length / bs := List.mem_range.mp hj
      have hj3 : (j + 1) * bs ≤ (l.length / bs) * bs := Nat.mul_le_mul_right bs (by omega)
      have hj4 : (j + 1) * bs ≤ l.length := by omega
      rw [chunk_slice_stable l x bs j hj4]
    · simp only [List.map_cons, List.map_nil]
      congr 2
      unfold lastN
      rw [hlen, hq]
      have hbs2 : bs ≤ l.length + 1 := Nat.le_of_dvd (by omega) hdvd
      have hl2 : ((l ++ [x]).drop (l.length + 1 - bs)).length = bs := by
        rw [List.length_drop, hlen]; omega
      rw [List.take_of_length_le (le_of_eq hl2)]
  · rw [if_neg hmod]
    have hdiv : (l.length + 1) / bs = l.length / bs := by
      rw [Nat.succ_div]
      rw [if_neg (fun hdvd => hmod ((Nat.dvd_iff_mod_eq_zero).mp hdvd))]
      omega
    unfold fullChunks
    have hlen : (l ++ [x]).length = l.length + 1 := by simp
    rw [hlen, hdiv]
    apply List.map_congr_left
    intro j hj
    have hj2 : j < l.length / bs := List.mem_range.mp hj
    have hj4 : (j + 1) * bs ≤ l.length := by
      rw [← Nat.le_div_iff_mul_le hbs]; omega
    rw [chunk_slice_stable l x bs j hj4]

/-- Concatenating the first k chunks of size bs yields the first k * bs
elements. -/
theorem chunks_flatten (bs : Nat) :
    ∀ (k : Nat) (l : List FetchRecord),
      ((List.range k).map (fun j => (l.drop (j * bs)).take bs)).flatten =
        l.take (k * bs) := by
  intro k
  induction k with
  | zero => intro l; simp
  | succ m ih =>
    intro l
    rw [List.range_succ, List.map_append, List.flatten_append, ih l]
    simp only [List.map_cons, List.map_nil, List.flatten_cons, List.flatten_nil,
      List.append_nil]
    rw [Nat.succ_mul, List.take_add]

/-- N ≤ ceil(N / bs) * bs for positive bs. -/
theorem le_ceilDiv_mul (n bs : Nat) (hbs : 0 < bs) : n ≤ ceilDiv n bs * bs := by
  unfold ceilDiv
  rcases Nat.eq_zero_or_pos n with h | h
  · simp [h]
  · obtain ⟨m, rfl⟩ : ∃ m, n = m + 1 := ⟨n - 1, by omega⟩
    have h1 : (m + 1 + bs - 1) / bs = m / bs + 1 := by
      have : m + 1 + bs - 1 = m + bs := by omega
      rw [this, Nat.add_div_right _ hbs]
    rw [h1]
    have h2 := Nat.div_add_mod m bs
    have h3 := Nat.mod_lt m hbs
    have h4 : (m / bs + 1) * bs = bs * (m / bs) + bs := by ring
    omega

/-- Flattening the predicted checkpoint list in batch order reproduces the
entire result list. -/
theorem ceilChunks_flatten (l : List FetchRecord) (bs : Nat) (hbs : 0 < bs) :
    ((ceilChunks l bs).map Prod.snd).flatten = l := by
  unfold ceilChunks
  rw [List.map_map]
  have : (Prod.snd ∘ fun j => (j + 1, (l.drop (j * bs)).take bs)) =
      fun j => (l.drop (j * bs)).take bs := rfl
  rw [this, chunks_flatten bs (ceilDiv l.length bs) l]
  exact List.take_of_length_le (le_ceilDiv_mul l.length bs hbs)

/-- Adding the final partial batch to the completed full chunks gives
exactly the predicted ceil(N / bs) chunks. -/
theorem fullChunks_with_tail (l : List FetchRecord) (bs : Nat) (hbs : 0 < bs) :
    (if l.length % bs ≠ 0 then
        fullChunks l bs ++ [(l.length / bs + 1, lastN l (l.length % bs))]
      else fullChunks l bs) = ceilChunks l bs := by
  have hdm := Nat.div_add_mod l.length bs
  have hml := Nat.mod_lt l.length hbs
  by_cases hmod : l.length % bs = 0
  · simp only [hmod, ne_eq, not_true_eq_false, if_false]
    unfold fullChunks ceilChunks ceilDiv
    have : (l.length + bs - 1) / bs = l.length / bs := by
      have hl : l.length = bs * (l.length / bs) := by omega
      have h2 : l.length + bs - 1 = (bs - 1) + bs * (l.length / bs) := by omega
      rw [h2, Nat.add_mul_div_left _ _ hbs, Nat.div_eq_of_lt (by omega)]
      omega
    rw [this]
  · simp only [ne_eq, hmod, not_false_eq_true, if_true]
    unfold fullChunks ceilChunks ceilDiv
    have hceil : (l.length + bs - 1) / bs = l.length / bs + 1 := by
      have hlin : bs * (l.length / bs + 1) = bs * (l.length / bs) + bs := by ring
      have h2 : l.length + bs - 1 = (l.length % bs - 1) + bs * (l.length / bs + 1) := by
        omega
      rw [h2, Nat.add_mul_div_left _ _ hbs, Nat.div_eq_of_lt (by omega)]
      omega
    rw [hceil, List.range_succ, List.map_append]
    congr 1
    simp only [List.map_cons, List.map_nil]
    congr 2
    unfold lastN
    have hdrop : l.length - l.length % bs = l.length / bs * bs := by
      have hc : l.length / bs * bs = bs * (l.length / bs) := Nat.mul_comm _ _
      omega
    rw [hdrop]
    have hlen2 : (l.drop (l.length / bs * bs)).length = l.length % bs := by
      rw [List.length_drop]; omega
    rw [List.take_of_length_le (by omega : (l.drop (l.length / bs * bs)).length ≤ bs)]

theorem taggedResults_length (recs : Nat → FetchRecord) :
    ∀ (rows : List SampleRow) (i : Nat), (taggedResults recs i rows).length = rows.length := by
  intro rows
  induction rows with
  | nil => intro i; rfl
  | cons row rest ih => intro i; simp [taggedResults, ih]

/-- Pointwise description of the loop's results under RowsOk: position j
holds a record naming the j-th sampled domain, tagged with its network. -/
theorem taggedResults_facts (env : Nat → Nat → AttemptOutcome) (recs : Nat → FetchRecord) :
    ∀ (rows : List SampleRow) (i : Nat), RowsOk env recs i rows →
      ∀ j, j < rows.length →
        ((taggedResults recs i rows).getD j defaultRecord).domain =
            (rows.getD j defaultRow).domain ∧
          ((taggedResults recs i rows).getD j defaultRecord).network =
            some ((rows.getD j defaultRow).network) := by
  intro rows
  induction rows with
  | nil => intro i _ j hj; simp at hj
  | cons row rest ih =>
    intro i hok j hj
    obtain ⟨hfetch, hrest⟩ := hok
    cases j with
    | zero =>
      have hdom := (fetchLoop_shape row.domain (env i) 3 3 0 0 [] (recs i) hfetch).1
      simp [taggedResults, List.getD, hdom]
    | succ m =>
      have := ih (i + 1) hrest m (by simpa using hj)
      simpa [taggedResults, List.getD] using this

/-- Invariant-passing description of collectLoop: starting from an
accumulator whose checkpoints are exactly the full chunks of its results,
the loop appends the tagged results and keeps the checkpoints in full-chunk
form. -/
theorem collectLoop_spec (env : Nat → Nat → AttemptOutcome) (bs : Nat) (hbs : 0 < bs)
    (recs : Nat → FetchRecord) :
    ∀ (rows : List SampleRow) (i : Nat) (acc : CollectAcc),
      RowsOk env recs i rows →
      acc.all_results.length = i →
      acc.checkpoints = fullChunks acc.all_results bs →
      ∃ s f, collectLoop env bs rows i acc = Except.ok
        (CollectAcc.mk (acc.all_results ++ taggedResults recs i rows)
          (fullChunks (acc.all_results ++ taggedResults recs i rows) bs) s f) := by
  intro rows
  induction rows with
  | nil =>
    intro i acc _ hlen hcp
    refine ⟨acc.successful_requests, acc.failed_requests, ?_⟩
    simp only [collectLoop, taggedResults, List.append_nil, ← hcp]
  | cons row rest ih =>
    intro i acc hok hlen hcp
    obtain ⟨hfetch, hrest⟩ := hok
    simp only [collectLoop, hfetch]
    set r : FetchRecord := { recs i with network := some row.network } with hr
    set results := acc.all_results ++ [r] with hresults
    have hlen2 : results.length = i + 1 := by
      rw [hresults, List.length_append, hlen]; rfl
    have hcp2 :
        (if (i + 1) % bs = 0 then
            acc.checkpoints ++ [((i + 1) / bs, lastN results bs)]
          else acc.checkpoints) = fullChunks results bs := by
      rw [hresults, fullChunks_append acc.all_results r bs hbs, hlen, hcp]
    obtain ⟨s, f, hloop⟩ := ih (i + 1)
      (CollectAcc.mk results
        (if (i + 1) % bs = 0 then
            acc.checkpoints ++ [((i + 1) / bs, lastN results bs)]
          else acc.checkpoints)
        (if r.api_success then acc.successful_requests + 1 else acc.successful_requests)
        (if r.api_success then acc.failed_requests else acc.failed_requests + 1))
      hrest hlen2 (by simpa using hcp2)
    refine ⟨s, f, ?_⟩
    rw [hloop]
    have hassoc : results ++ taggedResults recs (i + 1) rest =
        acc.all_results ++ taggedResults recs i (row :: rest) := by
      rw [hresults, List.append_assoc]
      rfl
    rw [hassoc]

/-- C2: collecting N > 0 domains with batch size B > 0 (full mode) returns
one result per domain and persists exactly ceil(N / B) checkpoint batches:
checkpoint j (numbered j + 1) is the contiguous slice of the result
sequence starting at j * B, and concatenating the checkpoints in
batch-number order reproduces the full result sequence exactly. -/
theorem collect_checkpoints (env : Nat → Nat → AttemptOutcome)
    (sample_df : List SampleRow) (batch_size : Nat) (recs : Nat → FetchRecord)
    (hbs : 0 < batch_size) (hN : 0 < sample_df.length)
    (hok : RowsOk env recs 0 sample_df) :
    ∃ acc, collect_all_data env sample_df batch_size false = Except.ok acc ∧
      acc.all_results.length = sample_df.length ∧
      acc.checkpoints = ceilChunks acc.all_results batch_size ∧
      acc.checkpoints.length = ceilDiv sample_df.length batch_size ∧
      ((acc.checkpoints.map Prod.snd).flatten = acc.all_results) := by
  obtain ⟨s, f, hloop⟩ := collectLoop_spec env batch_size hbs recs sample_df 0
    (CollectAcc.mk [] [] 0 0) hok rfl (by simp [fullChunks])
  simp only [List.nil_append] at hloop
  set results := taggedResults recs 0 sample_df with hres
  have hrlen : results.length = sample_df.length := taggedResults_length recs sample_df 0
  have hne : ¬(results.length = 0) := by omega
  have hfinal : collect_all_data env sample_df batch_size false = Except.ok
      (CollectAcc.mk results
        (if results.length % batch_size ≠ 0 then
            fullChunks results batch_size ++
              [(results.length / batch_size + 1, lastN results (results.length % batch_size))]
          else fullChunks results batch_size) s f) := by
    simp only [collect_all_data, Bool.false_eq_true, if_false, hloop]
    by_cases hmod : results.length % batch_size = 0
    · simp [hmod, hne]
    · simp [hmod, hne]
  rw [fullChunks_with_tail results batch_size hbs] at hfinal
  refine ⟨_, hfinal, hrlen, rfl, ?_, ceilChunks_flatten results batch_size hbs⟩
  simp only [ceilChunks, List.length_map, List.length_range, hrlen]

/-- Witness for collect_checkpoints: three domains, batch size two, all
fetches answered 404; two checkpoints are produced. -/
theorem collect_checkpoints_witness :
    ∃ acc, collect_all_data (fun _ _ => AttemptOutcome.resp (HttpResponse.mk 404 JsonBody.malformed none ("")))
        [SampleRow.mk ("a.com") ("N1"), SampleRow.mk ("b.com") ("N2"),
          SampleRow.mk ("c.com") ("N1")] 2 false = Except.ok acc ∧
      acc.all_results.length =
        ([SampleRow.mk ("a.com") ("N1"), SampleRow.mk ("b.com") ("N2"),
          SampleRow.mk ("c.com") ("N1")] : List SampleRow).length ∧
      acc.checkpoints = ceilChunks acc.all_results 2 ∧
      acc.checkpoints.length = ceilDiv ([SampleRow.mk ("a.com") ("N1"),
        SampleRow.mk ("b.com") ("N2"), SampleRow.mk ("c.com") ("N1")] :
          List SampleRow).length 2 ∧
      ((acc.checkpoints.map Prod.snd).flatten = acc.all_results) :=
  collect_checkpoints (fun _ _ => AttemptOutcome.resp (HttpResponse.mk 404 JsonBody.malformed none ("")))
    [SampleRow.mk ("a.com") ("N1"), SampleRow.mk ("b.com") ("N2"),
      SampleRow.mk ("c.com") ("N1")] 2
    (fun i => notFoundRecord (List.getD [("a.com"), ("b.com"), ("c.com")] i ("")))
    (by decide) (by decide) (by exact ⟨rfl, rfl, rfl, trivial⟩)

/-- C6 (amended): on every non-empty sample, collect_all_data returns one
FetchResult per input domain, in sample order: the j-th result names the
j-th sampled domain and is tagged with that row's network (group).  (On
the empty sample it does not return: the final summary divides by
len(all_results) and raises ZeroDivisionError; see the counterexample.) -/
theorem collect_order (env : Nat → Nat → AttemptOutcome) (sample_df : List SampleRow)
    (batch_size : Nat) (is_testing : Bool) (recs : Nat → FetchRecord)
    (hbs : 0 < batch_size) (hN : 0 < sample_df.length)
    (hok : RowsOk env recs 0 sample_df) :
    ∃ acc, collect_all_data env sample_df batch_size is_testing = Except.ok acc ∧
      acc.all_results.length = sample_df.length ∧
      ∀ j, j < sample_df.length →
        ((acc.all_results.getD j defaultRecord).domain =
            (sample_df.getD j defaultRow).domain ∧
          (acc.all_results.getD j defaultRecord).network =
            some ((sample_df.getD j defaultRow).network)) := by
  have hbs2 : 0 < (if is_testing then min 10 batch_size else batch_size) := by
    cases is_testing <;> simp <;> omega
  obtain ⟨s, f, hloop⟩ :=
    collectLoop_spec env (if is_testing then min 10 batch_size else batch_size) hbs2
      recs sample_df 0 (CollectAcc.mk [] [] 0 0) hok rfl (by simp [fullChunks])
  simp only [List.nil_append] at hloop
  have hlen := taggedResults_length recs sample_df 0
  have hpt := taggedResults_facts env recs sample_df 0 hok
  have hne : ¬((taggedResults recs 0 sample_df).length = 0) := by
    rw [hlen]; omega
  by_cases hmod : (taggedResults recs 0 sample_df).length %
      (if is_testing then min 10 batch_size else batch_size) ≠ 0
  · refine ⟨CollectAcc.mk (taggedResults recs 0 sample_df)
        (fullChunks (taggedResults recs 0 sample_df)
            (if is_testing then min 10 batch_size else batch_size) ++
          [((taggedResults recs 0 sample_df).length /
              (if is_testing then min 10 batch_size else batch_size) + 1,
            lastN (taggedResults recs 0 sample_df)
              ((taggedResults recs 0 sample_df).length %
                (if is_testing then min 10 batch_size else batch_size)))]) s f,
      ?_, hlen, fun j hj => hpt j hj⟩
    simp [collect_all_data, hloop, hmod, hne]
  · refine ⟨CollectAcc.mk (taggedResults recs 0 sample_df)
        (fullChunks (taggedResults recs 0 sample_df)
          (if is_testing then min 10 batch_size else batch_size)) s f,
      ?_, hlen, fun j hj => hpt j hj⟩
    simp [collect_all_data, hloop, hmod, hne]

/-- Witness for collect_order on a two-domain sample in testing mode. -/
theorem collect_order_witness :
    ∃ acc, collect_all_data
        (fun _ _ => AttemptOutcome.resp (HttpResponse.mk 404 JsonBody.malformed none ("")))
        [SampleRow.mk ("a.com") ("N1"), SampleRow.mk ("b.com") ("N2")] 100 true =
          Except.ok acc ∧
      acc.all_results.length =
        ([SampleRow.mk ("a.com") ("N1"), SampleRow.mk ("b.com") ("N2")] :
          List SampleRow).length ∧
      ∀ j, j < ([SampleRow.mk ("a.com") ("N1"), SampleRow.mk ("b.com") ("N2")] :
          List SampleRow).length →
        ((acc.all_results.getD j defaultRecord).domain =
            (([SampleRow.mk ("a.com") ("N1"), SampleRow.mk ("b.com") ("N2")] :
              List SampleRow).getD j defaultRow).domain ∧
          (acc.all_results.getD j defaultRecord).network =
            some ((([SampleRow.mk ("a.com") ("N1"), SampleRow.mk ("b.com") ("N2")] :
              List SampleRow).getD j defaultRow).network)) :=
  collect_order (fun _ _ => AttemptOutcome.resp (HttpResponse.mk 404 JsonBody.malformed none ("")))
    [SampleRow.mk ("a.com") ("N1"), SampleRow.mk ("b.com") ("N2")] 100 true
    (fun i => notFoundRecord (List.getD [("a.com"), ("b.com")] i ("")))
    (by decide) (by decide) (by exact ⟨rfl, rfl, trivial⟩)

/-- C6 counterexample: on the empty sample the program never returns the
(empty) result sequence: the final summary statistic
successful_requests / len(all_results) (line 360) divides zero by zero and
raises ZeroDivisionError before the return statement. -/
theorem collect_empty_sample_cex :
    collect_all_data (fun _ _ => AttemptOutcome.resp
        (HttpResponse.mk 404 JsonBody.malformed none (""))) [] 100 false =
      Except.error ("ZeroDivisionError: division by zero") := rfl

/-! ## Lemmas about the rate limiter -/

theorem dayOf_mono {a b : Nat} (h : a ≤ b) : dayOf a ≤ dayOf b :=
  Nat.div_le_div_right h

theorem secondsPerDay_pos : 0 < secondsPerDay := by decide

theorem dayOf_midnight (k : Nat) : dayOf (k * secondsPerDay) = k :=
  Nat.mul_div_cancel k secondsPerDay_pos

/-- Timestamps of out ++ one new entry, within one day-marker epoch. -/
theorem epochTimes_append_entry (out : List (Nat × Nat)) (e : Nat × Nat) (d : Nat) :
    epochTimes (out ++ [e]) d =
      epochTimes out d ++ (if e.2 = d then [e.1] else []) := by
  unfold epochTimes
  rw [List.filter_append, List.map_append]
  congr 1
  by_cases h : e.2 = d
  · simp [h]
  · simp [h]

/-- An epoch with no acquisitions has no timestamps. -/
theorem epochTimes_of_countMarker_zero (out : List (Nat × Nat)) (d : Nat)
    (h : countMarker out d = 0) : epochTimes out d = [] := by
  unfold countMarker at h
  rw [List.countP_eq_zero] at h
  unfold epochTimes
  rw [List.filter_eq_nil_iff.mpr h]
  rfl

/-- The per-epoch window count is a count over the epoch's timestamps. -/
theorem countWindowMarker_eq_countP (out : List (Nat × Nat)) (d T : Nat) :
    countWindowMarker out d T =
      (epochTimes out d).countP (fun t => decide (T ≤ t ∧ t < T + 60)) := by
  unfold countWindowMarker epochTimes
  rw [List.countP_map, List.countP_filter]
  congr 1
  funext e
  by_cases h1 : e.2 = d <;> by_cases h2 : T ≤ e.1 <;> by_cases h3 : e.1 < T + 60 <;>
    simp [h1, h2, h3]

theorem countMarker_append_entry (out : List (Nat × Nat)) (e : Nat × Nat) (d : Nat) :
    countMarker (out ++ [e]) d = countMarker out d + (if e.2 = d then 1 else 0) := by
  unfold countMarker
  rw [List.countP_append]
  congr 1
  by_cases h : e.2 = d <;> simp [List.countP_cons, h]

theorem countWindowMarker_append_entry (out : List (Nat × Nat)) (e : Nat × Nat)
    (d T : Nat) :
    countWindowMarker (out ++ [e]) d T = countWindowMarker out d T +
      (if e.2 = d ∧ T ≤ e.1 ∧ e.1 < T + 60 then 1 else 0) := by
  unfold countWindowMarker
  rw [List.countP_append]
  congr 1
  by_cases h : e.2 = d ∧ T ≤ e.1 ∧ e.1 < T + 60 <;> simp [List.countP_cons, h]

/-- The eviction loop removes a prefix of entries that are all at least 60
seconds old. -/
theorem evictOlder_decomp (now : Nat) (ts : List Nat) :
    ∃ dropped, ts = dropped ++ evictOlder now ts ∧ ∀ t ∈ dropped, t + 60 ≤ now := by
  refine ⟨ts.takeWhile (fun t => decide (t + 60 ≤ now)), ?_, ?_⟩
  · exact (List.takeWhile_append_dropWhile _ ts).symm
  · intro t ht
    have h2 := List.mem_takeWhile_imp ht
    exact of_decide_eq_true h2

theorem evictOlder_length_le (now : Nat) (ts : List Nat) :
    (evictOlder now ts).length ≤ ts.length :=
  (List.dropWhile_sublist _).length_le

/-- The minute-limit gate: it only drops entries that are 60 seconds old at
the (possibly advanced) clock, never moves the clock backwards, and leaves
at most REQUESTS_PER_MINUTE - 1 entries in the deque. -/
theorem minuteGate_spec (ts1 : List Nat) (now2 : Nat)
    (hlen : ts1.length ≤ REQUESTS_PER_MINUTE) :
    ∃ dropped, ts1 = dropped ++ (minuteGate ts1 now2).1 ∧
      (∀ t ∈ dropped, t + 60 ≤ (minuteGate ts1 now2).2) ∧
      (minuteGate ts1 now2).1.length + 1 ≤ REQUESTS_PER_MINUTE ∧
      now2 ≤ (minuteGate ts1 now2).2 := by
  unfold minuteGate
  by_cases h : REQUESTS_PER_MINUTE ≤ ts1.length
  · rw [if_pos h]
    cases ts1 with
    | nil => simp [REQUESTS_PER_MINUTE] at h
    | cons oldest rest =>
      simp only [List.headD_cons]
      have head : (fun t => decide (t + 60 ≤ max now2 (oldest + 60))) oldest = true :=
        decide_eq_true (le_max_right _ _)
      have hev : evictOlder (max now2 (oldest + 60)) (oldest :: rest) =
          evictOlder (max now2 (oldest + 60)) rest := by
        unfold evictOlder
        rw [List.dropWhile_cons, if_pos head]
      obtain ⟨dr, hdr, hold⟩ := evictOlder_decomp (max now2 (oldest + 60)) (oldest :: rest)
      refine ⟨dr, hdr, hold, ?_, le_max_left _ _⟩
      rw [hev]
      have h2 := evictOlder_length_le (max now2 (oldest + 60)) rest
      simp only [List.length_cons] at hlen
      simp only [REQUESTS_PER_MINUTE] at hlen ⊢
      omega
  · rw [if_neg h]
    refine ⟨[], rfl, by simp, ?_, le_rfl⟩
    simp only [REQUESTS_PER_MINUTE] at h ⊢
    omega

/-- One acquisition from a mid-state (after the day-change reset and daily
gate) preserves the invariant. -/
theorem finish_step (ts0 : List Nat) (c d now2 : Nat) (out : List (Nat × Nat))
    (f1 : ts0.length ≤ REQUESTS_PER_MINUTE)
    (f2 : ∃ pre, epochTimes out d = pre ++ ts0 ∧ ∀ t ∈ pre, t + 60 ≤ now2)
    (f3 : ∀ d2 T, countWindowMarker out d2 T ≤ REQUESTS_PER_MINUTE)
    (f4 : countMarker out d = c)
    (f5 : ∀ d2, countMarker out d2 ≤ REQUESTS_PER_DAY)
    (f6 : ∀ d2, d < d2 → countMarker out d2 = 0)
    (f7 : c < REQUESTS_PER_DAY)
    (f8 : d ≤ dayOf now2) :
    RateInv (finishAcquire ts0 c d now2).1
        (out ++ [((finishAcquire ts0 c d now2).2, d)]) (finishAcquire ts0 c d now2).2 ∧
      now2 ≤ (finishAcquire ts0 c d now2).2 := by
  obtain ⟨pre, hpre, hpreold⟩ := f2
  obtain ⟨drC, hdrC, hdrCold⟩ := evictOlder_decomp now2 ts0
  have hlen1 : (evictOlder now2 ts0).length ≤ REQUESTS_PER_MINUTE :=
    le_trans (evictOlder_length_le now2 ts0) f1
  obtain ⟨drD, hdrD, hdrDold, hlen2, hclk⟩ := minuteGate_spec (evictOlder now2 ts0) now2 hlen1
  set p3 := minuteGate (evictOlder now2 ts0) now2 with hp3
  set now3 := p3.2 with hnow3
  set ts2 := p3.1 with hts2
  have hfin : finishAcquire ts0 c d now2 = (RateState.mk (ts2 ++ [now3]) (c + 1) d, now3) := rfl
  rw [hfin]
  have hd3 : dayOf now2 ≤ dayOf now3 := dayOf_mono hclk
  -- decomposition of the new epoch timestamps
  have hepoch : epochTimes (out ++ [(now3, d)]) d = (pre ++ drC ++ drD) ++ (ts2 ++ [now3]) := by
    rw [epochTimes_append_entry]
    simp only [if_pos rfl]
    rw [hpre, hdrC, hdrD]
    simp [List.append_assoc]
  have hopold : ∀ t ∈ pre ++ drC ++ drD, t + 60 ≤ now3 := by
    intro t ht
    rcases List.mem_append.mp ht with ht2 | ht2
    · rcases List.mem_append.mp ht2 with ht3 | ht3
      · exact le_trans (hpreold t ht3) hclk
      · exact le_trans (hdrCold t ht3) hclk
    · exact hdrDold t ht2
  constructor
  · constructor
    · -- deque_len
      simp only [List.length_append, List.length_cons, List.length_nil]
      omega
    · -- deque_suffix
      exact ⟨pre ++ drC ++ drD, hepoch, fun t ht => hopold t ht⟩
    · -- window_ok
      intro d2 T
      by_cases hin : (now3, d).2 = d2 ∧ T ≤ (now3, d).1 ∧ (now3, d).1 < T + 60
      · obtain ⟨hd2, hT1, hT2⟩ := hin
        rw [countWindowMarker_eq_countP, ← hd2, hepoch, List.countP_append]
        have hz : (pre ++ drC ++ drD).countP (fun t => decide (T ≤ t ∧ t < T + 60)) = 0 := by
          rw [List.countP_eq_zero]
          intro t ht
          have hto := hopold t ht
          simp only [decide_eq_true_eq]
          intro hcon
          omega
        rw [hz]
        have hcount : (ts2 ++ [now3]).countP (fun t => decide (T ≤ t ∧ t < T + 60)) ≤
            ts2.length + 1 := by
          have h5 := List.countP_le_length
            (fun t => decide (T ≤ t ∧ t < T + 60)) (l := ts2 ++ [now3])
          simpa using h5
        omega
      · rw [countWindowMarker_append_entry]
        rw [if_neg hin]
        simpa using f3 d2 T
    · -- counter_eq
      rw [countMarker_append_entry]
      simp [f4]
    · -- day_ok
      intro d2
      rw [countMarker_append_entry]
      by_cases hd2 : (now3, d).2 = d2
      · rw [if_pos hd2]
        simp only [← hd2, f4]
        simp only [REQUESTS_PER_DAY] at f7 ⊢
        omega
      · rw [if_neg hd2]
        simpa using f5 d2
    · -- fresh
      intro d2 hlt
      have hlt2 : d < d2 := hlt
      rw [countMarker_append_entry]
      have hne : ¬((now3, d).2 = d2) := by
        show ¬(d = d2)
        omega
      rw [if_neg hne, f6 d2 hlt2]
    · -- marker_le
      exact le_trans f8 hd3
  · exact hclk

/-- The clock value is strictly before the next midnight. -/
theorem lt_next_midnight (now : Nat) : now < (dayOf now + 1) * secondsPerDay := by
  have h1 := Nat.mod_add_div now secondsPerDay
  have h2 := Nat.mod_lt now secondsPerDay_pos
  have h3 : (dayOf now + 1) * secondsPerDay =
      secondsPerDay * (now / secondsPerDay) + secondsPerDay := by
    unfold dayOf; ring
  omega

/-- One call to respect_rate_limits preserves the invariant and never moves
the effective clock backwards. -/
theorem acquire_step (s : RateState) (out : List (Nat × Nat)) (lastT now : Nat)
    (inv : RateInv s out lastT) (hnow : lastT ≤ now) :
    RateInv (respect_rate_limits s now).1
        (out ++ [((respect_rate_limits s now).2, (respect_rate_limits s now).1.currentDay)])
        (respect_rate_limits s now).2 ∧
      now ≤ (respect_rate_limits s now).2 := by
  by_cases hA : dayOf now = s.currentDay
  · by_cases hB : REQUESTS_PER_DAY ≤ s.requestsToday
    · -- same day, daily limit reached: sleep to next midnight and reset
      have heq : respect_rate_limits s now =
          finishAcquire [] 0 (dayOf ((dayOf now + 1) * secondsPerDay))
            ((dayOf now + 1) * secondsPerDay) := by
        simp only [respect_rate_limits, finishAcquire, if_pos hA, if_pos hB]
      have hd : dayOf ((dayOf now + 1) * secondsPerDay) = dayOf now + 1 :=
        dayOf_midnight (dayOf now + 1)
      have hfreshd : countMarker out (dayOf ((dayOf now + 1) * secondsPerDay)) = 0 := by
        apply inv.fresh
        omega
      have hstep := finish_step [] 0 (dayOf ((dayOf now + 1) * secondsPerDay))
        ((dayOf now + 1) * secondsPerDay) out
        (by simp [REQUESTS_PER_MINUTE])
        (⟨[], by rw [epochTimes_of_countMarker_zero out _ hfreshd]; rfl, by simp⟩)
        inv.window_ok hfreshd inv.day_ok
        (fun d2 hlt => inv.fresh d2 (by omega))
        (by simp [REQUESTS_PER_DAY])
        le_rfl
      rw [heq]
      refine ⟨hstep.1, ?_⟩
      have h1 := lt_next_midnight now
      have h2 := hstep.2
      omega
    · -- same day, below the daily limit
      have heq : respect_rate_limits s now =
          finishAcquire s.requestTimes s.requestsToday s.currentDay now := by
        simp only [respect_rate_limits, finishAcquire, if_pos hA, if_neg hB]
      obtain ⟨pre, hpre, hpreold⟩ := inv.deque_suffix
      have hstep := finish_step s.requestTimes s.requestsToday s.currentDay now out
        inv.deque_len
        (⟨pre, hpre, fun t ht => le_trans (hpreold t ht) hnow⟩)
        inv.window_ok inv.counter_eq inv.day_ok inv.fresh
        (Nat.lt_of_not_le hB)
        (le_of_eq hA.symm)
      rw [heq]
      exact ⟨hstep.1, hstep.2⟩
  · -- new day: reset the deque and counter
    have hB0 : ¬(REQUESTS_PER_DAY ≤ (0 : Nat)) := by simp [REQUESTS_PER_DAY]
    have heq : respect_rate_limits s now =
        finishAcquire [] 0 (dayOf now) now := by
      simp only [respect_rate_limits, finishAcquire, if_neg hA]
      rw [if_neg hB0]
    have hlt : s.currentDay < dayOf now := by
      have h1 := inv.marker_le
      have h2 := dayOf_mono hnow
      omega
    have hfreshd : countMarker out (dayOf now) = 0 := inv.fresh _ hlt
    have hstep := finish_step [] 0 (dayOf now) now out
      (by simp [REQUESTS_PER_MINUTE])
      (⟨[], by rw [epochTimes_of_countMarker_zero out _ hfreshd]; rfl, by simp⟩)
      inv.window_ok hfreshd inv.day_ok
      (fun d2 hlt2 => inv.fresh d2 (by omega))
      (by simp [REQUESTS_PER_DAY])
      le_rfl
    rw [heq]
    exact ⟨hstep.1, hstep.2⟩

/-- Running any valid clock sequence from an invariant state keeps every
epoch within the per-window and per-day bounds. -/
theorem runAcquires_inv : ∀ (nows : List Nat) (s : RateState) (out : List (Nat × Nat))
    (lastT : Nat), RateInv s out lastT → validClocks s lastT nows = true →
    (∀ d T, countWindowMarker (out ++ runAcquires s nows) d T ≤ REQUESTS_PER_MINUTE) ∧
      (∀ d, countMarker (out ++ runAcquires s nows) d ≤ REQUESTS_PER_DAY) := by
  intro nows
  induction nows with
  | nil =>
    intro s out lastT inv _
    simp only [runAcquires, List.append_nil]
    exact ⟨inv.window_ok, inv.day_ok⟩
  | cons now rest ih =>
    intro s out lastT inv hvalid
    simp only [validClocks, Bool.and_eq_true, decide_eq_true_eq] at hvalid
    obtain ⟨hle, hrest⟩ := hvalid
    have hstep := acquire_step s out lastT now inv hle
    have hih := ih (respect_rate_limits s now).1
      (out ++ [((respect_rate_limits s now).2, (respect_rate_limits s now).1.currentDay)])
      (respect_rate_limits s now).2 hstep.1 hrest
    simp only [runAcquires]
    constructor
    · intro d T
      have h := hih.1 d T
      rw [List.append_assoc] at h
      simpa using h
    · intro d
      have h := hih.2 d
      rw [List.append_assoc] at h
      simpa using h

/-- The invariant holds at process start. -/
theorem initRateState_inv (t0 : Nat) : RateInv (initRateState t0) [] t0 := by
  constructor
  · simp [initRateState, REQUESTS_PER_MINUTE]
  · exact ⟨[], rfl, by simp⟩
  · intro d T
    simp [countWindowMarker, REQUESTS_PER_MINUTE]
  · rfl
  · intro d
    simp [countMarker, REQUESTS_PER_DAY]
  · intro d _
    rfl
  · exact le_rfl

/-- C1 (amended): along any run of respect_rate_limits whose clock never
runs backwards, at most REQUESTS_PER_MINUTE (45) acquisitions sharing one
day-marker value have timestamps within any trailing 60-second window, and
at most REQUESTS_PER_DAY (5000) acquisitions are counted against any one
day-marker value.  (The minute window and daily counter are cleared
whenever the day marker changes, so the bounds hold per marker epoch, not
across a day change.) -/
theorem rate_limiter_marker_bounds (t0 : Nat) (nows : List Nat)
    (hvalid : validClocks (initRateState t0) t0 nows = true) (d T : Nat) :
    countWindowMarker (runAcquires (initRateState t0) nows) d T ≤ REQUESTS_PER_MINUTE ∧
      countMarker (runAcquires (initRateState t0) nows) d ≤ REQUESTS_PER_DAY := by
  have h := runAcquires_inv nows (initRateState t0) [] t0 (initRateState_inv t0) hvalid
  exact ⟨by simpa using h.1 d T, by simpa using h.2 d⟩

/-- Witness for rate_limiter_marker_bounds on a two-call trace. -/
theorem rate_limiter_marker_bounds_witness :
    validClocks (initRateState 100) 100 [150, 170] = true ∧
      (countWindowMarker (runAcquires (initRateState 100) [150, 170]) 0 120 ≤
          REQUESTS_PER_MINUTE ∧
        countMarker (runAcquires (initRateState 100) [150, 170]) 0 ≤ REQUESTS_PER_DAY) :=
  ⟨by decide, rate_limiter_marker_bounds 100 [150, 170] (by decide) 0 120⟩

theorem runState_append (s : RateState) (l1 l2 : List Nat) :
    runState s (l1 ++ l2) = runState (runState s l1) l2 := by
  induction l1 generalizing s with
  | nil => rfl
  | cons now rest ih =>
    simp only [List.cons_append, runState, List.append_eq]
    rw [ih]

theorem runAcquires_append (s : RateState) (l1 l2 : List Nat) :
    runAcquires s (l1 ++ l2) = runAcquires s l1 ++ runAcquires (runState s l1) l2 := by
  induction l1 generalizing s with
  | nil => rfl
  | cons now rest ih =>
    simp only [List.cons_append, runAcquires, runState, List.append_eq]
    rw [ih]

theorem runLastT_append (s : RateState) (lastT : Nat) (l1 l2 : List Nat) :
    runLastT s lastT (l1 ++ l2) = runLastT (runState s l1) (runLastT s lastT l1) l2 := by
  induction l1 generalizing s lastT with
  | nil => rfl
  | cons now rest ih =>
    simp only [List.cons_append, runLastT, runState, List.append_eq]
    rw [ih]

theorem validClocks_append (s : RateState) (lastT : Nat) (l1 l2 : List Nat) :
    validClocks s lastT (l1 ++ l2) =
      (validClocks s lastT l1 && validClocks (runState s l1) (runLastT s lastT l1) l2) := by
  induction l1 generalizing s lastT with
  | nil => simp [validClocks, runState, runLastT]
  | cons now rest ih =>
    simp only [List.cons_append, validClocks, runState, runLastT, List.append_eq,
      Bool.and_assoc]
    rw [ih]

/-- A same-timestamp call with room in both windows appends one deque entry
and bumps the counter: no eviction (nothing is 60 seconds old), no gate. -/
theorem step_same (m c d T : Nat) (hm : m + 1 ≤ REQUESTS_PER_MINUTE)
    (hc : c < REQUESTS_PER_DAY) (hd : dayOf T = d) :
    respect_rate_limits (RateState.mk (List.replicate m T) c d) T =
      (RateState.mk (List.replicate (m + 1) T) (c + 1) d, T) := by
  have hev : evictOlder T (List.replicate m T) = List.replicate m T := by
    unfold evictOlder
    rw [List.dropWhile_eq_self_iff]
    intro hl
    simp only [List.get_replicate, decide_eq_true_eq]
    omega
  have hgate : minuteGate (List.replicate m T) T = (List.replicate m T, T) := by
    unfold minuteGate
    rw [if_neg (by simp only [List.length_replicate]; omega)]
  simp only [respect_rate_limits, if_pos hd, if_neg (Nat.not_le_of_lt hc), hev, hgate]
  rw [← List.replicate_succ' m T]

/-- A call whose deque is entirely at least 60 seconds old evicts it all and
starts a fresh singleton deque. -/
theorem step_evictAll (ts : List Nat) (c d T : Nat) (hts : ∀ t ∈ ts, t + 60 ≤ T)
    (hc : c < REQUESTS_PER_DAY) (hd : dayOf T = d) :
    respect_rate_limits (RateState.mk ts c d) T =
      (RateState.mk [T] (c + 1) d, T) := by
  have hev : evictOlder T ts = [] := by
    unfold evictOlder
    rw [List.dropWhile_eq_nil_iff]
    intro t ht
    exact decide_eq_true (hts t ht)
  have hgate : minuteGate ([] : List Nat) T = ([], T) := by
    unfold minuteGate
    rw [if_neg (by simp [REQUESTS_PER_MINUTE])]
  simp only [respect_rate_limits, if_pos hd, if_neg (Nat.not_le_of_lt hc), hev, hgate]
  rfl

/-- Running j same-timestamp calls from a same-timestamp deque of size m. -/
theorem run_same (j : Nat) : ∀ (m c d T lastT : Nat),
    m + j ≤ REQUESTS_PER_MINUTE → c + j ≤ REQUESTS_PER_DAY → dayOf T = d → lastT ≤ T →
    runAcquires (RateState.mk (List.replicate m T) c d) (List.replicate j T) =
        List.replicate j (T, d) ∧
      runState (RateState.mk (List.replicate m T) c d) (List.replicate j T) =
        RateState.mk (List.replicate (m + j) T) (c + j) d ∧
      validClocks (RateState.mk (List.replicate m T) c d) lastT (List.replicate j T) =
        true ∧
      runLastT (RateState.mk (List.replicate m T) c d) lastT (List.replicate j T) =
        (if j = 0 then lastT else T) := by
  induction j with
  | zero =>
    intro m c d T lastT _ _ _ _
    exact ⟨rfl, rfl, rfl, rfl⟩
  | succ k ih =>
    intro m c d T lastT hm hc hd hl
    have hstep := step_same m c d T (by omega) (by omega) hd
    have hih := ih (m + 1) (c + 1) d T T (by omega) (by omega) hd le_rfl
    rw [List.replicate_succ]
    refine ⟨?_, ?_, ?_, ?_⟩
    · simp only [runAcquires, hstep]
      rw [hih.1, List.replicate_succ]
    · simp only [runState, hstep]
      rw [hih.2.1]
      have e1 : m + 1 + k = m + (k + 1) := by omega
      have e2 : c + 1 + k = c + (k + 1) := by omega
      rw [e1, e2]
    · simp only [validClocks, hstep]
      rw [hih.2.2.1]
      simp [hl]
    · simp only [runLastT, hstep]
      rw [hih.2.2.2]
      simp

/-- Running j calls at one timestamp T from a deque that is entirely at
least 60 seconds old: the first call evicts everything. -/
theorem run_burst (j : Nat) (ts : List Nat) (c d T lastT : Nat)
    (hts : ∀ t ∈ ts, t + 60 ≤ T) (hj : 1 ≤ j) (hjm : j ≤ REQUESTS_PER_MINUTE)
    (hc : c + j ≤ REQUESTS_PER_DAY) (hd : dayOf T = d) (hl : lastT ≤ T) :
    runAcquires (RateState.mk ts c d) (List.replicate j T) =
        List.replicate j (T, d) ∧
      runState (RateState.mk ts c d) (List.replicate j T) =
        RateState.mk (List.replicate j T) (c + j) d ∧
      validClocks (RateState.mk ts c d) lastT (List.replicate j T) = true ∧
      runLastT (RateState.mk ts c d) lastT (List.replicate j T) = T := by
  obtain ⟨k, rfl⟩ : ∃ k, j = k + 1 := ⟨j - 1, by omega⟩
  have hstep := step_evictAll ts c d T hts (by omega) hd
  have hih := run_same k 1 (c + 1) d T T (by omega) (by omega) hd le_rfl
  rw [List.replicate_succ]
  refine ⟨?_, ?_, ?_, ?_⟩
  · simp only [runAcquires, hstep]
    have h1 : RateState.mk [T] (c + 1) d =
        RateState.mk (List.replicate 1 T) (c + 1) d := rfl
    rw [h1, hih.1, List.replicate_succ]
  · simp only [runState, hstep]
    have h1 : RateState.mk [T] (c + 1) d =
        RateState.mk (List.replicate 1 T) (c + 1) d := rfl
    rw [h1, hih.2.1]
    have e1 : 1 + k = k + 1 := by omega
    have e2 : c + 1 + k = c + (k + 1) := by omega
    rw [e1, e2, List.replicate_succ]
  · simp only [validClocks, hstep]
    have h1 : RateState.mk [T] (c + 1) d =
        RateState.mk (List.replicate 1 T) (c + 1) d := rfl
    rw [h1, hih.2.2.1]
    simp [hl]
  · simp only [runLastT, hstep]
    have h1 : RateState.mk [T] (c + 1) d =
        RateState.mk (List.replicate 1 T) (c + 1) d := rfl
    rw [h1, hih.2.2.2]
    simp

/-- Running n consecutive 45-call bursts spaced 60 seconds apart within one
day-marker epoch: each burst's deque is exactly 60 seconds old when the
next burst starts, so every call is admitted without waiting. -/
theorem run_bursts (n : Nat) : ∀ (ts : List Nat) (c d T lastT : Nat),
    1 ≤ n →
    (∀ t ∈ ts, t + 60 ≤ T) →
    c + 45 * n ≤ REQUESTS_PER_DAY →
    (∀ b, b < n → dayOf (T + 60 * b) = d) →
    lastT ≤ T →
    runAcquires (RateState.mk ts c d) (burstTrace T n) = burstEntries T d n ∧
      runState (RateState.mk ts c d) (burstTrace T n) =
        RateState.mk (List.replicate 45 (T + 60 * (n - 1))) (c + 45 * n) d ∧
      validClocks (RateState.mk ts c d) lastT (burstTrace T n) = true ∧
      runLastT (RateState.mk ts c d) lastT (burstTrace T n) = T + 60 * (n - 1) := by
  induction n with
  | zero =>
    intro ts c d T lastT h1
    exact absurd h1 (by omega)
  | succ m ih =>
    intro ts c d T lastT _ hts hc hdays hl
    have h45 : (45 : Nat) ≤ REQUESTS_PER_MINUTE := by simp [REQUESTS_PER_MINUTE]
    by_cases hm : m = 0
    · subst hm
      simp only [burstTrace, burstEntries, List.nil_append]
      have hd0 : dayOf (T + 60 * 0) = d := hdays 0 (by omega)
      have hb := run_burst 45 ts c d (T + 60 * 0) lastT
        (by intro t ht; have := hts t ht; omega) (by omega) h45 (by omega) hd0
        (by omega)
      refine ⟨hb.1, ?_, hb.2.2.1, ?_⟩
      · rw [hb.2.1]
      · rw [hb.2.2.2]
    · have hmge : 1 ≤ m := by omega
      have hih := ih ts c d T lastT hmge hts (by omega) (fun b hb => hdays b (by omega)) hl
      have hts2 : ∀ t ∈ List.replicate 45 (T + 60 * (m - 1)), t + 60 ≤ T + 60 * m := by
        intro t ht
        rw [List.mem_replicate] at ht
        omega
      have hd2 : dayOf (T + 60 * m) = d := hdays m (by omega)
      have hb := run_burst 45 (List.replicate 45 (T + 60 * (m - 1))) (c + 45 * m) d
        (T + 60 * m) (T + 60 * (m - 1)) hts2 (by omega) h45 (by omega) hd2 (by omega)
      simp only [burstTrace, burstEntries]
      refine ⟨?_, ?_, ?_, ?_⟩
      · rw [runAcquires_append, hih.1, hih.2.1, hb.1]
      · rw [runState_append, hih.2.1, hb.2.1]
        have e1 : c + 45 * m + 45 = c + 45 * (m + 1) := by omega
        have e2 : m + 1 - 1 = m := by omega
        rw [e1, e2]
      · rw [validClocks_append, hih.2.1, hih.2.2.1, hih.2.2.2, hb.2.2.1]
        rfl
      · rw [runLastT_append, hih.2.1, hih.2.2.2, hb.2.2.2]
        have e2 : m + 1 - 1 = m := by omega
        rw [e2]

theorem countCalendarDay_append (l1 l2 : List (Nat × Nat)) (d : Nat) :
    countCalendarDay (l1 ++ l2) d = countCalendarDay l1 d + countCalendarDay l2 d :=
  List.countP_append _ l1 l2

theorem countCalendarDay_burstEntries (T d day : Nat) :
    ∀ n, (∀ b, b < n → dayOf (T + 60 * b) = day) →
      countCalendarDay (burstEntries T d n) day = 45 * n := by
  intro n
  induction n with
  | zero => intro _; rfl
  | succ m ih =>
    intro h
    simp only [burstEntries]
    rw [countCalendarDay_append, ih (fun b hb => h b (by omega))]
    unfold countCalendarDay
    rw [List.countP_replicate]
    rw [if_pos (decide_eq_true (h m (by omega)))]
    omega

/-- Running the daily counterexample trace: its clocks are valid (they never
run backwards past an effective timestamp) and it produces exactly the
entries of dailyCexEntries. -/
theorem dailyTraceFacts :
    runAcquires (initRateState 86340) dailyCexTrace = dailyCexEntries ∧
      validClocks (initRateState 86340) 86340 dailyCexTrace = true := by
  have hinit : initRateState 86340 = RateState.mk (List.replicate 0 86350) 0 0 := rfl
  have h1 := run_same 45 0 0 0 86350 86340 (by decide) (by decide) (by decide) (by decide)
  have hL1 : runLastT (RateState.mk (List.replicate 0 86350) 0 0) 86340
      (List.replicate 45 86350) = 86350 := by rw [h1.2.2.2]; decide
  have c2a : runAcquires (RateState.mk (List.replicate 45 86350) 45 0) [86399] =
      [(86410, 0)] := by decide
  have c2b : runState (RateState.mk (List.replicate 45 86350) 45 0) [86399] =
      RateState.mk [86410] 46 0 := by decide
  have c2c : validClocks (RateState.mk (List.replicate 45 86350) 45 0) 86350 [86399] =
      true := by decide
  have c2d : runLastT (RateState.mk (List.replicate 45 86350) 45 0) 86350 [86399] =
      86410 := by decide
  have c3a : runAcquires (RateState.mk [86410] 46 0) [86410] = [(86410, 1)] := by decide
  have c3b : runState (RateState.mk [86410] 46 0) [86410] =
      RateState.mk (List.replicate 1 86410) 1 1 := by decide
  have c3c : validClocks (RateState.mk [86410] 46 0) 86410 [86410] = true := by decide
  have c3d : runLastT (RateState.mk [86410] 46 0) 86410 [86410] = 86410 := by decide
  have h4 := run_same 44 1 1 1 86410 86410 (by decide) (by decide) (by decide) (by decide)
  have S4 : runState (RateState.mk (List.replicate 1 86410) 1 1)
      (List.replicate 44 86410) = RateState.mk (List.replicate 45 86410) 45 1 := by
    rw [h4.2.1]
  have L4 : runLastT (RateState.mk (List.replicate 1 86410) 1 1) 86410
      (List.replicate 44 86410) = 86410 := by rw [h4.2.2.2]; decide
  have hdays5 : ∀ b, b < 110 → dayOf (86470 + 60 * b) = 1 := by
    intro b hb
    unfold dayOf secondsPerDay
    omega
  have h5 := run_bursts 110 (List.replicate 45 86410) 45 1 86470 86410 (by decide)
    (by intro t ht; rw [List.mem_replicate] at ht; omega)
    (by decide) hdays5 (by decide)
  have h6 := run_burst 5 (List.replicate 45 (86470 + 60 * (110 - 1))) (45 + 45 * 110) 1
    93070 (86470 + 60 * (110 - 1))
    (by intro t ht; rw [List.mem_replicate] at ht; omega)
    (by decide) (by decide) (by decide) (by decide) (by decide)
  constructor
  · unfold dailyCexTrace dailyCexEntries
    rw [hinit]
    rw [runAcquires_append, h1.1, h1.2.1]
    rw [runAcquires_append, c2a, c2b]
    rw [runAcquires_append, c3a, c3b]
    rw [runAcquires_append, h4.1, S4]
    rw [runAcquires_append, h5.1, h5.2.1]
    rw [h6.1]
  · unfold dailyCexTrace
    rw [hinit]
    rw [validClocks_append, h1.2.2.1, h1.2.1, hL1]
    rw [validClocks_append, c2c, c2b, c2d]
    rw [validClocks_append, c3c, c3b, c3d]
    rw [validClocks_append, h4.2.2.1, S4, L4]
    rw [validClocks_append, h5.2.2.1, h5.2.1, h5.2.2.2]
    rw [h6.2.2.1]
    rfl

/-- C1 counterexample: the claimed bounds fail at day boundaries.  First, a
trailing 60-second window straddling midnight holds 46 acquisitions: the
day-change reset clears the minute window, so one acquisition at 86399
(just before midnight) and 45 at 86401 all fall inside the window starting
at 86370.  Second, calendar day 1 receives 5001 acquisitions: a minute-limit
wait that crosses midnight produces an acquisition stamped 86410 (day 1)
counted against day 0's counter, after which day 1's fresh counter admits
5000 more. -/
theorem rate_limiter_claim_cex :
    (validClocks (initRateState 86340) 86340 windowCexTrace = true ∧
      countWindowAll (runAcquires (initRateState 86340) windowCexTrace) 86370 = 46 ∧
      REQUESTS_PER_MINUTE < 46) ∧
    (validClocks (initRateState 86340) 86340 dailyCexTrace = true ∧
      countCalendarDay (runAcquires (initRateState 86340) dailyCexTrace) 1 = 5001 ∧
      REQUESTS_PER_DAY < 5001) := by
  refine ⟨⟨by decide, by decide, by decide⟩, ⟨dailyTraceFacts.2, ?_, by decide⟩⟩
  rw [dailyTraceFacts.1]
  unfold dailyCexEntries
  rw [countCalendarDay_append, countCalendarDay_append, countCalendarDay_append,
    countCalendarDay_append, countCalendarDay_append,
    countCalendarDay_burstEntries 86470 1 1 110
      (by intro b hb; unfold dayOf secondsPerDay; omega)]
  have e1 : countCalendarDay (List.replicate 45 ((86350 : Nat), (0 : Nat))) 1 = 0 := by
    decide
  have e2 : countCalendarDay [((86410 : Nat), (0 : Nat))] 1 = 1 := by decide
  have e3 : countCalendarDay [((86410 : Nat), (1 : Nat))] 1 = 1 := by decide
  have e4 : countCalendarDay (List.replicate 44 ((86410 : Nat), (1 : Nat))) 1 = 44 := by
    decide
  have e5 : countCalendarDay (List.replicate 5 ((93070 : Nat), (1 : Nat))) 1 = 5 := by
    decide
  rw [e1, e2, e3, e4, e5]

end Sincera
